import Mathlib

/-!
Verification development for the Meraki Client Detective analysis core
(`app.py`): timestamp-hour classifiers, event deduplication, the loitering
and extended-session detectors, per-device out-of-hours aggregation, and
the ordered risk-classification policy.

Modelling conventions (shallow embedding, faithful to `app.py`):

* An ISO-8601 timestamp string `"YYYY-MM-DDTHH:MM:SS.mmmZ"` is modelled by
  `TS`: `date` is the calendar day as a day number (the `timestamp[:10]`
  prefix; consecutive calendar dates map to consecutive numbers, so the
  Python `target_dt + timedelta(days=1)` is `date + 1`), and
  `hour`/`minute`/`second` are the parsed time-of-day fields (`dt.hour`
  etc.).  For well-formed fixed-width ISO strings, Python's lexicographic
  string comparison (used by `sort`, `min`, `max`) agrees with comparison
  of `TS.key`, and `(b - a).total_seconds()` is `TS.key b - TS.key a`;
  both are modelled through `TS.key`.
* `datetime.fromisoformat` failure is modelled by `Option TS`: `none` is an
  unparsable timestamp.  The analysis pipeline itself (which in Python only
  ever parses timestamps that already passed `is_out_of_hours`, or would
  raise) is modelled on events whose timestamps parse, i.e. `Conn` carries
  a `TS` directly.
* Python `dict`s keyed by MAC are modelled as insertion-ordered association
  lists, `set`s as insertion-ordered duplicate-free lists; iteration order
  of a Python dict is its insertion order, which the association lists
  preserve.
* `list.sort(key=...)` (stable Timsort) is modelled by the stable insertion
  sort `sortByTs`.
* Python float arithmetic on durations is modelled over `ℚ`;
  `round(x, 1)` is modelled as rounding to the nearest tenth
  (`roundTenth`), with ties rounded half-up.
* Risk levels are the string literals used by `app.py`.
-/

namespace MerakiDetective

/-- Parsed timestamp: calendar-day number (models `timestamp[:10]`) plus
time-of-day fields (models `datetime.fromisoformat(...)`). -/
structure TS where
  date : Nat
  hour : Nat
  minute : Nat
  second : Nat
deriving DecidableEq, Repr

/-- Linear key of a timestamp, in seconds: models both lexicographic
comparison of well-formed ISO strings and `datetime` subtraction. -/
def TS.key (t : TS) : Nat :=
  t.date * 86400 + t.hour * 3600 + t.minute * 60 + t.second

/-- A normalized connection record, as built by `run_analysis`
(`connection_data` dict, `app.py:1319-1329`), with the timestamp parsed. -/
structure Conn where
  organization : String
  network : String
  timestamp : TS
  event_type : String
  client_mac : String
  client_description : String
  device_serial : String
  ssid : String
  description : String
deriving DecidableEq, Repr

/-- Function `is_out_of_hours` (`app.py:48-56`): hour ≥ 18 or hour < 6; an
unparsable timestamp (`none`) yields `false` (the `except` branch). -/
def is_out_of_hours (t : Option TS) : Bool :=
  match t with
  | none => false
  | some ts => decide (18 ≤ ts.hour) || decide (ts.hour < 6)

/-- Function `is_business_hours` (`app.py:58-65`): 6 ≤ hour < 18; an unparsable
timestamp yields `false`. -/
def is_business_hours (t : Option TS) : Bool :=
  match t with
  | none => false
  | some ts => decide (6 ≤ ts.hour) && decide (ts.hour < 18)

/-! ### Event deduplication (`run_analysis`, `app.py:1305-1313`) -/

/-- A raw provider event as consumed by the dedup loop in `run_analysis`
(fields read via `event.get(...)`). -/
structure RawEvent where
  occurredAt : String
  type : String
  clientMac : String
  clientDescription : String
  deviceSerial : String
  ssid : String
  description : String
deriving DecidableEq, Repr

/-- Models `event_key = (event.get('occurredAt'), event.get('clientMac'),
event.get('type'))` (`app.py:1310`). -/
def eventKey (e : RawEvent) : String × String × String :=
  (e.occurredAt, e.clientMac, e.type)

/-- The dedup loop of `run_analysis` (`app.py:1306-1313`): `seen` models
the `seen_events` set; first occurrence of a key is emitted, repeats are
discarded. -/
def dedupAux (seen : List (String × String × String)) :
    List RawEvent → List RawEvent
  | [] => []
  | e :: es =>
    if eventKey e ∈ seen then dedupAux seen es
    else e :: dedupAux (eventKey e :: seen) es

/-- Models `deduplicated_events` as computed by `run_analysis` from the combined
event list. -/
def deduplicateEvents (es : List RawEvent) : List RawEvent :=
  dedupAux [] es

/-! ### Stable sort by timestamp
(`device_conns.sort(key=lambda x: x['timestamp'])`, `app.py:87` and `:349`) -/

/-- Insert a connection after all connections with key ≤ its key. -/
def insertByTs (c : Conn) : List Conn → List Conn
  | [] => [c]
  | d :: ds =>
    if d.timestamp.key ≤ c.timestamp.key then d :: insertByTs c ds
    else c :: d :: ds

/-- Stable sort by timestamp, modelling Python's stable `sort` keyed on the
ISO timestamp string. -/
def sortByTs (l : List Conn) : List Conn :=
  l.foldl (fun acc c => insertByTs c acc) []

/-! ### Python dicts keyed by MAC -/

/-- Python dict update `g[m] = f(g[m] if m in g else init)`: update the
entry of `m` in place, creating `f init` at the end when `m` is new
(dict insertion order). -/
def dictUpsert {α : Type} : List (String × α) → String → α → (α → α) →
    List (String × α)
  | [], m, init, f => [(m, f init)]
  | (k, v) :: rest, m, init, f =>
    if k = m then (k, f v) :: rest
    else (k, v) :: dictUpsert rest m init f

/-- Python dict lookup `g[m]` (`none` when absent). -/
def lookupD {α : Type} : List (String × α) → String → Option α
  | [], _ => none
  | (k, v) :: rest, m => if k = m then some v else lookupD rest m

/-- The keys of a dict, in insertion order. -/
def keysD {α : Type} (g : List (String × α)) : List String :=
  g.map Prod.fst

/-! ### Single-day grouping by MAC
(the `target_day_connections` dicts of `detect_loitering_patterns`,
`app.py:72-79`, and `analyze_extended_sessions`, `app.py:334-341`) -/

/-- The grouping loops of `detect_loitering_patterns` and
`analyze_extended_sessions`: keep connections whose date prefix equals the
target date and whose MAC is truthy, grouped by MAC in arrival order. -/
def targetDayGroups (conns : List Conn) (target_date : Nat) :
    List (String × List Conn) :=
  (conns.filter fun c =>
      decide (c.timestamp.date = target_date) && decide (c.client_mac ≠ "")).foldl
    (fun g c => dictUpsert g c.client_mac [] (fun l => l ++ [c])) []

/-- Default connection used to express `device_conns[0]` / `device_conns[-1]`
on lists already known to be nonempty. -/
def dfltConn : Conn :=
  ⟨"", "", ⟨0, 0, 0, 0⟩, "", "", "", "", "", ""⟩

/-- Zero-pad a number to two digits, modelling the `:02d` format. -/
def pad2 (n : Nat) : String :=
  if n < 10 then "0" ++ toString n else toString n

/-- Models `round(q, 1)`: round to the nearest tenth (ties half-up, modelling the
intent of Python's `round(x, 1)`). -/
def roundTenth (q : ℚ) : ℚ :=
  (round (10 * q) : ℤ) / 10

/-- Format a duration with one decimal digit, modelling `f"{x:.1f}"`. -/
def fmtTenth (q : ℚ) : String :=
  let t : ℤ := round (10 * q)
  toString (t / 10) ++ "." ++ toString (t % 10)

/-! ### Loitering detector (`detect_loitering_patterns`, `app.py:67-119`) -/

/-- One entry of the `loitering_devices` list (`app.py:102-117`). -/
structure LoiterRec where
  mac : String
  description : String
  first_target_connection : TS
  last_target_connection : TS
  duration_hours : ℚ
  target_date_connections : Nat
  baseline_connections : Nat
  days_seen_out_of_hours : Nat
  networks : List String
  ssids : List String
  arrived_hour : Nat
  departed_hour : Nat
  risk_level : String
  risk_explanation : String
deriving DecidableEq, Repr

/-- Models `device_conns[0]` of a sorted group (`app.py:89`). -/
def firstConn (l : List Conn) : Conn :=
  (sortByTs l).head?.getD dfltConn

/-- Models `device_conns[-1]` of a sorted group (`app.py:90`). -/
def lastConn (l : List Conn) : Conn :=
  (sortByTs l).getLast?.getD dfltConn

/-- Models `(last_conn - first_conn).total_seconds()` for a sorted group
(`app.py:99`). -/
def elapsedSec (l : List Conn) : ℤ :=
  ((lastConn l).timestamp.key : ℤ) - (firstConn l).timestamp.key

/-- The record `detect_loitering_patterns` appends for a flagged group
(`app.py:102-117`). -/
def loiterRecOf (m : String) (l : List Conn) : LoiterRec :=
  { mac := m
    description := (firstConn l).client_description
    first_target_connection := (firstConn l).timestamp
    last_target_connection := (lastConn l).timestamp
    duration_hours := roundTenth ((elapsedSec l : ℚ) / 3600)
    target_date_connections := l.length
    baseline_connections := 0
    days_seen_out_of_hours := 1
    networks := []
    ssids := []
    arrived_hour := (firstConn l).timestamp.hour
    departed_hour :=
      if 18 ≤ (lastConn l).timestamp.hour then (lastConn l).timestamp.hour
      else 24
    risk_level := "LOITERING_SUSPICIOUS"
    risk_explanation :=
      "LOITERING PATTERN: Arrived at " ++ pad2 (firstConn l).timestamp.hour ++
      ":00 during business hours, stayed until " ++
      pad2 (lastConn l).timestamp.hour ++ ":00+ (" ++
      fmtTenth ((elapsedSec l : ℚ) / 3600) ++
      " hours total). Unusual for employee to stay this late - " ++
      "potential insider threat or theft preparation." }

/-- The loop body of `detect_loitering_patterns` for one MAC's group
(`app.py:82-117`): `none` models `continue` / no flag. -/
def loiterEmit (m : String) (l : List Conn) : Option LoiterRec :=
  if l.length < 2 then none
  else
    let arrived_business_hours :=
      decide (6 ≤ (firstConn l).timestamp.hour) &&
      decide ((firstConn l).timestamp.hour < 18)
    let stayed_late := decide (18 ≤ (lastConn l).timestamp.hour)
    if arrived_business_hours && stayed_late &&
        decide ((8 : ℚ) < (elapsedSec l : ℚ) / 3600) then
      some (loiterRecOf m l)
    else none

/-- Function `detect_loitering_patterns` (`app.py:67-119`): group the connections of
the target date by MAC; for each group of ≥ 2 connections, sort by
timestamp and flag when the first connection's hour is in `[6, 18)`, the
last connection's hour is ≥ 18, and the elapsed time exceeds 8 hours. -/
def detect_loitering_patterns (conns : List Conn) (target_date : Nat) :
    List LoiterRec :=
  (targetDayGroups conns target_date).filterMap fun g => loiterEmit g.1 g.2

/-! ### Extended-session detector (`analyze_extended_sessions`,
`app.py:320-378`) -/

/-- One entry of the `extended_session_devices` list (`app.py:364-376`). -/
structure ExtRec where
  mac : String
  description : String
  first_connection : TS
  last_connection : TS
  duration_hours : ℚ
  total_connections : Nat
  connected_hour : Nat
  last_seen_hour : Nat
  business_hours_start : Bool
  after_hours_activity : Bool
  risk_explanation : String
deriving DecidableEq, Repr

/-- The record `analyze_extended_sessions` appends for a flagged group
(`app.py:364-376`). -/
def extRecOf (m : String) (l : List Conn) : ExtRec :=
  { mac := m
    description := (firstConn l).client_description
    first_connection := (firstConn l).timestamp
    last_connection := (lastConn l).timestamp
    duration_hours := roundTenth ((elapsedSec l : ℚ) / 3600)
    total_connections := l.length
    connected_hour := (firstConn l).timestamp.hour
    last_seen_hour := (lastConn l).timestamp.hour
    business_hours_start := true
    after_hours_activity := true
    risk_explanation :=
      "EXTENDED SESSION: Connected at " ++ pad2 (firstConn l).timestamp.hour ++
      ":00 during business hours, last seen at " ++
      pad2 (lastConn l).timestamp.hour ++ ":00 after hours. Session duration: " ++
      fmtTenth ((elapsedSec l : ℚ) / 3600) ++ " hours." }

/-- The loop body of `analyze_extended_sessions` for one MAC's group
(`app.py:344-376`). -/
def extEmit (m : String) (l : List Conn) : Option ExtRec :=
  if l.length < 2 then none
  else
    let connected_business_hours :=
      is_business_hours (some (firstConn l).timestamp)
    let stayed_after_hours := decide (18 ≤ (lastConn l).timestamp.hour)
    if connected_business_hours && stayed_after_hours then
      some (extRecOf m l)
    else none

/-- Function `analyze_extended_sessions` (`app.py:320-378`): same single-day grouping
as the loitering detector, flagging when the first connection is during
business hours and the last connection's hour is ≥ 18 — no duration
threshold.  (The target-date-defaulting branch for `target_date=None`,
`app.py:323-329`, is not modelled: the date is passed explicitly.) -/
def analyze_extended_sessions (conns : List Conn) (target_date : Nat) :
    List ExtRec :=
  (targetDayGroups conns target_date).filterMap fun g => extEmit g.1 g.2

/-! ### Per-device out-of-hours aggregation
(`analyze_out_of_hours_patterns`, `app.py:132-171`) -/

/-- The per-MAC aggregate dict of `device_patterns` (`app.py:145-171`). -/
structure DevData where
  description : String
  networks : List String
  ssids : List String
  target_date_connections : List Conn
  baseline_connections : List Conn
  all_dates : List Nat
deriving DecidableEq, Repr

/-- Python `set.add`, modelled on an insertion-ordered duplicate-free
list. -/
def insertSet {α : Type} [DecidableEq α] (x : α) (l : List α) : List α :=
  if x ∈ l then l else l ++ [x]

/-- The target-night-cycle membership test (`app.py:159-168`):
`is_target_evening or is_target_morning`, where the next day of the target
date is `target_date + 1`. -/
def isTargetCycle (target_date : Nat) (c : Conn) : Bool :=
  (decide (c.timestamp.date = target_date) && decide (18 ≤ c.timestamp.hour)) ||
  (decide (c.timestamp.date = target_date + 1) && decide (c.timestamp.hour < 6))

/-- The per-connection update body of the aggregation loop
(`app.py:155-171`): record network, ssid and date, then append the
connection to the target or baseline bucket. -/
def updData (target_date : Nat) (d : DevData) (c : Conn) : DevData :=
  let d :=
    { d with
      networks := insertSet c.network d.networks
      ssids := insertSet c.ssid d.ssids
      all_dates := insertSet c.timestamp.date d.all_dates }
  if isTargetCycle target_date c then
    { d with target_date_connections := d.target_date_connections ++ [c] }
  else
    { d with baseline_connections := d.baseline_connections ++ [c] }

/-- The fresh entry created on a MAC's first out-of-hours connection
(`app.py:146-153`). -/
def freshData (desc : String) : DevData :=
  ⟨desc, [], [], [], [], []⟩

/-- Models `out_of_hours_connections` (`app.py:133`). -/
def oohConns (conns : List Conn) : List Conn :=
  conns.filter fun c => is_out_of_hours (some c.timestamp)

/-- Models `device_patterns` (`app.py:136-171`): fold the out-of-hours connections,
skipping falsy MACs, into per-MAC aggregates. -/
def devicePatterns (conns : List Conn) (target_date : Nat) :
    List (String × DevData) :=
  (oohConns conns).foldl
    (fun g c =>
      if c.client_mac = "" then g
      else dictUpsert g c.client_mac (freshData c.client_description)
        (fun d => updData target_date d c))
    []

/-! ### Classification (`analyze_out_of_hours_patterns`, `app.py:173-254`) -/

/-- One record of the device buckets: the `device_info` dict
(`app.py:190-201`) plus the fields set during classification.  Keys absent
from the Python dict are modelled as `none` / `""`. -/
structure DeviceInfo where
  mac : String
  description : String
  target_date_connections : Nat
  baseline_connections : Nat
  days_seen_out_of_hours : Nat
  networks : List String
  ssids : List String
  first_target_connection : Option TS
  last_target_connection : Option TS
  risk_explanation : String
  risk_level : String
  duration_hours : Option ℚ
  arrived_hour : Option Nat
  departed_hour : Option Nat
deriving DecidableEq, Repr

/-- Models `min(conn['timestamp'] for conn in l)` over an optional-empty list. -/
def minTS? (l : List Conn) : Option TS :=
  l.foldl
    (fun acc c =>
      match acc with
      | none => some c.timestamp
      | some u => if c.timestamp.key < u.key then some c.timestamp else some u)
    none

/-- Models `max(conn['timestamp'] for conn in l)` over an optional-empty list. -/
def maxTS? (l : List Conn) : Option TS :=
  l.foldl
    (fun acc c =>
      match acc with
      | none => some c.timestamp
      | some u => if u.key < c.timestamp.key then some c.timestamp else some u)
    none

/-- The `device_info` dict as first built (`app.py:190-201`), before any
classification branch runs. -/
def baseInfo (m : String) (d : DevData) : DeviceInfo :=
  { mac := m
    description := d.description
    target_date_connections := d.target_date_connections.length
    baseline_connections := d.baseline_connections.length
    days_seen_out_of_hours := d.all_dates.length
    networks := d.networks
    ssids := d.ssids
    first_target_connection := minTS? d.target_date_connections
    last_target_connection := maxTS? d.target_date_connections
    risk_explanation := ""
    risk_level := ""
    duration_hours := none
    arrived_hour := none
    departed_hour := none }

/-- Models `next((ld for ld in loitering_devices if ld['mac'] == mac), None)`
(`app.py:209`). -/
def loiterLookup (lds : List LoiterRec) (m : String) : Option LoiterRec :=
  lds.find? fun ld => decide (ld.mac = m)

/-- Rule-2 explanation (`app.py:219`). -/
def explAnomalousNew (tc : Nat) : String :=
  "NEVER seen out-of-hours in 7-day baseline period. This device appeared " ++
  "for the first time during incident window (" ++ toString tc ++
  " connections on target date). Could be: intruder device, stolen device, " ++
  "or employee device used during theft."

/-- Rule-3 explanation (`app.py:223`). -/
def explRegularMultiDay (bc ds : Nat) : String :=
  "Regular out-of-hours device: " ++ toString bc ++
  " baseline connections across " ++ toString ds ++
  " days. Expected to be present during incident window."

/-- Rule-4 explanation (`app.py:227`). -/
def explRegularSingleDay (bc : Nat) : String :=
  "Regular out-of-hours device: " ++ toString bc ++
  " baseline connections (single day pattern). Likely IoT/always-on device."

/-- Rule-5 explanation (`app.py:231`). -/
def explSuspiciousSparse (bc ds tc : Nat) : String :=
  "Suspicious pattern: Only " ++ toString bc ++
  " baseline connections on " ++ toString ds ++ " day(s), but " ++
  toString tc ++ " connections on target date. Could be: employee working " ++
  "unusual hours, device brought in for theft, or coincidental usage."

/-- Baseline-only explanation, `days_seen ≥ 3` branch (`app.py:238`). -/
def explBaselineAlwaysOn (bc ds : Nat) : String :=
  "Always-on device: " ++ toString bc ++ " baseline connections across " ++
  toString ds ++ " days, but NO connections on target date. Could be " ++
  "normal (stayed connected) or suspicious (device turned off/removed " ++
  "during incident)."

/-- Baseline-only explanation, `days_seen < 3` branch (`app.py:240`). -/
def explBaselineMonitor (bc ds : Nat) : String :=
  "Baseline device: " ++ toString bc ++ " baseline connections on " ++
  toString ds ++ " day(s), but absent on target date. Monitor for unusual " ++
  "absence pattern."

/-- The classified record of a device with `target_count > 0`
(`app.py:204-232`): the `device_info` dict after the matched branch of the
ordered `if`/`elif` chain has overwritten its fields.  In Python the dict
appended to `target_date_devices` at `app.py:206` is this same object
(mutated in place), so the bucket holds the final record. -/
def classifiedInfo (lds : List LoiterRec) (m : String) (d : DevData) :
    DeviceInfo :=
  let b := { baseInfo m d with risk_level := "TARGET_DATE" }
  let tc := d.target_date_connections.length
  let bc := d.baseline_connections.length
  let ds := d.all_dates.length
  match loiterLookup lds m with
  | some ld =>
    { b with
      risk_level := "LOITERING_SUSPICIOUS"
      risk_explanation := ld.risk_explanation
      duration_hours := some ld.duration_hours
      arrived_hour := some ld.arrived_hour
      departed_hour := some ld.departed_hour }
  | none =>
    if bc = 0 then
      { b with
        risk_level := "ANOMALOUS_SUSPICIOUS"
        risk_explanation := explAnomalousNew tc }
    else if 1 ≤ bc ∧ 2 ≤ ds then
      { b with
        risk_level := "BASELINE_REGULAR"
        risk_explanation := explRegularMultiDay bc ds }
    else if 3 ≤ bc then
      { b with
        risk_level := "BASELINE_REGULAR"
        risk_explanation := explRegularSingleDay bc }
    else
      { b with
        risk_level := "ANOMALOUS_SUSPICIOUS"
        risk_explanation := explSuspiciousSparse bc ds tc }

/-- The five bucket lists of the `analysis` dict (`app.py:177-183`). -/
structure Analysis where
  target_date_devices : List DeviceInfo
  baseline_regular_devices : List DeviceInfo
  anomalous_devices : List DeviceInfo
  baseline_only_devices : List DeviceInfo
  loitering_devices : List LoiterRec
deriving DecidableEq, Repr

/-- Key list of the `analysis` dict literal (`app.py:177-183`), as iterated
by the exporter's `analysis.items()` (`app.py:285`). -/
def analysisKeys : List String :=
  ["target_date_devices", "baseline_regular_devices", "anomalous_devices",
   "baseline_only_devices", "loitering_devices"]

/-- The per-MAC body of the classification loop (`app.py:185-252`).  The
`device_info` dict appended to `target_date_devices` is mutated in place by
the matched rule, so the bucket receives the final `classifiedInfo`
record; the baseline-only branch appends an explicit `.copy()` to
`baseline_regular_devices` with the label overwritten (`app.py:244-252`). -/
def processEntry (lds : List LoiterRec) (a : Analysis)
    (e : String × DevData) : Analysis :=
  let m := e.1
  let d := e.2
  let tc := d.target_date_connections.length
  let bc := d.baseline_connections.length
  let ds := d.all_dates.length
  if 0 < tc then
    let r := classifiedInfo lds m d
    let a := { a with target_date_devices := a.target_date_devices ++ [r] }
    match loiterLookup lds m with
    | some _ => { a with anomalous_devices := a.anomalous_devices ++ [r] }
    | none =>
      if bc = 0 then
        { a with anomalous_devices := a.anomalous_devices ++ [r] }
      else if 1 ≤ bc ∧ 2 ≤ ds then
        { a with
          baseline_regular_devices := a.baseline_regular_devices ++ [r] }
      else if 3 ≤ bc then
        { a with
          baseline_regular_devices := a.baseline_regular_devices ++ [r] }
      else
        { a with anomalous_devices := a.anomalous_devices ++ [r] }
  else if 0 < bc then
    let r :=
      { baseInfo m d with
        risk_level := "BASELINE_ONLY"
        risk_explanation :=
          if 3 ≤ ds then explBaselineAlwaysOn bc ds
          else explBaselineMonitor bc ds }
    let a :=
      { a with baseline_only_devices := a.baseline_only_devices ++ [r] }
    if 1 ≤ bc ∧ 2 ≤ ds then
      { a with
        baseline_regular_devices :=
          a.baseline_regular_devices ++ [{ r with risk_level := "BASELINE_REGULAR" }] }
    else if 3 ≤ bc then
      { a with
        baseline_regular_devices :=
          a.baseline_regular_devices ++ [{ r with risk_level := "BASELINE_REGULAR" }] }
    else a
  else a

/-- Function `analyze_out_of_hours_patterns` (`app.py:121-254`): build the per-MAC
aggregates, run the loitering detector over all connections, then classify
every aggregate into the five output buckets.  (The target-date-defaulting
branch for `target_date=None`, `app.py:124-130`, is not modelled: the date
is passed explicitly.) -/
def analyze_out_of_hours_patterns (conns : List Conn) (target_date : Nat) :
    Analysis :=
  let lds := detect_loitering_patterns conns target_date
  (devicePatterns conns target_date).foldl (processEntry lds)
    { target_date_devices := []
      baseline_regular_devices := []
      anomalous_devices := []
      baseline_only_devices := []
      loitering_devices := lds }

/-! ### Derived views used to state the claims -/

/-- All out-of-hours connections of one MAC, in arrival order. -/
def macOohStream (conns : List Conn) (m : String) : List Conn :=
  (oohConns conns).filter fun c => decide (c.client_mac = m)

/-- The aggregate a MAC's out-of-hours occurrence list produces: a fresh
entry seeded with the first occurrence's description, then every
occurrence folded through the update body (`none` when the MAC never
occurs). -/
def aggSpec (D : Nat) : List Conn → Option DevData
  | [] => none
  | c :: l => some ((c :: l).foldl (updData D) (freshData c.client_description))

/-- The connections of MAC `m` dated `D`, in arrival order. -/
def targetDayConns (conns : List Conn) (D : Nat) (m : String) : List Conn :=
  conns.filter fun c =>
    decide (c.timestamp.date = D) && decide (c.client_mac = m)

/-- The loitering predicate as the claim states it: at least 2 connections
dated `D`; after sorting by timestamp the first connection's hour is in
`[6, 18)`, the last connection's hour is ≥ 18, and the elapsed time from
first to last exceeds 8 hours (28800 seconds). -/
def loiterCond (conns : List Conn) (D : Nat) (m : String) : Prop :=
  2 ≤ (targetDayConns conns D m).length ∧
  6 ≤ (firstConn (targetDayConns conns D m)).timestamp.hour ∧
  (firstConn (targetDayConns conns D m)).timestamp.hour < 18 ∧
  18 ≤ (lastConn (targetDayConns conns D m)).timestamp.hour ∧
  28800 < elapsedSec (targetDayConns conns D m)

instance (conns : List Conn) (D : Nat) (m : String) :
    Decidable (loiterCond conns D m) := by
  unfold loiterCond; infer_instance

/-- The extended-session predicate of `analyze_extended_sessions`: at least
2 connections dated `D`; the first sorted connection is during business
hours and the last one's hour is ≥ 18 (no duration threshold). -/
def extCond (conns : List Conn) (D : Nat) (m : String) : Prop :=
  2 ≤ (targetDayConns conns D m).length ∧
  is_business_hours (some (firstConn (targetDayConns conns D m)).timestamp) = true ∧
  18 ≤ (lastConn (targetDayConns conns D m)).timestamp.hour

instance (conns : List Conn) (D : Nat) (m : String) :
    Decidable (extCond conns D m) := by
  unfold extCond; infer_instance

/-- The ordered, first-match-wins policy exactly as the specification
states it (spec §4.4 Step 4); to be compared with the classification the
code performs. -/
def specPolicy (loitered : Bool) (baseline_count days_seen : Nat) : String :=
  if loitered then "LOITERING_SUSPICIOUS"
  else if baseline_count = 0 then "ANOMALOUS_SUSPICIOUS"
  else if 1 ≤ baseline_count ∧ 2 ≤ days_seen then "BASELINE_REGULAR"
  else if 3 ≤ baseline_count then "BASELINE_REGULAR"
  else "ANOMALOUS_SUSPICIOUS"

/-! ### Per-entry bucket contributions of the classification loop -/

/-- The records the classification loop appends to `target_date_devices`
for one `device_patterns` entry. -/
def targetContrib (lds : List LoiterRec) (e : String × DevData) :
    List DeviceInfo :=
  if 0 < e.2.target_date_connections.length then [classifiedInfo lds e.1 e.2]
  else []

/-- The records the classification loop appends to `anomalous_devices` for
one `device_patterns` entry. -/
def anomContrib (lds : List LoiterRec) (e : String × DevData) :
    List DeviceInfo :=
  let bc := e.2.baseline_connections.length
  let ds := e.2.all_dates.length
  if 0 < e.2.target_date_connections.length then
    match loiterLookup lds e.1 with
    | some _ => [classifiedInfo lds e.1 e.2]
    | none =>
      if bc = 0 then [classifiedInfo lds e.1 e.2]
      else if 1 ≤ bc ∧ 2 ≤ ds then []
      else if 3 ≤ bc then []
      else [classifiedInfo lds e.1 e.2]
  else []

/-- The record the baseline-only branch builds (`app.py:236-240`). -/
def baselineOnlyInfo (m : String) (d : DevData) : DeviceInfo :=
  { baseInfo m d with
    risk_level := "BASELINE_ONLY"
    risk_explanation :=
      if 3 ≤ d.all_dates.length then
        explBaselineAlwaysOn d.baseline_connections.length d.all_dates.length
      else
        explBaselineMonitor d.baseline_connections.length d.all_dates.length }

/-- The records the classification loop appends to
`baseline_regular_devices` for one `device_patterns` entry. -/
def regContrib (lds : List LoiterRec) (e : String × DevData) :
    List DeviceInfo :=
  let bc := e.2.baseline_connections.length
  let ds := e.2.all_dates.length
  if 0 < e.2.target_date_connections.length then
    match loiterLookup lds e.1 with
    | some _ => []
    | none =>
      if bc = 0 then []
      else if 1 ≤ bc ∧ 2 ≤ ds then [classifiedInfo lds e.1 e.2]
      else if 3 ≤ bc then [classifiedInfo lds e.1 e.2]
      else []
  else if 0 < bc then
    if 1 ≤ bc ∧ 2 ≤ ds then
      [{ baselineOnlyInfo e.1 e.2 with risk_level := "BASELINE_REGULAR" }]
    else if 3 ≤ bc then
      [{ baselineOnlyInfo e.1 e.2 with risk_level := "BASELINE_REGULAR" }]
    else []
  else []

/-- The records the classification loop appends to `baseline_only_devices`
for one `device_patterns` entry. -/
def onlyContrib (e : String × DevData) : List DeviceInfo :=
  if 0 < e.2.target_date_connections.length then []
  else if 0 < e.2.baseline_connections.length then [baselineOnlyInfo e.1 e.2]
  else []

/-! ### Concrete inputs used by witnesses and counterexamples -/

/-- A connection record with the given timestamp and MAC. -/
def mkConn (date hour minute : Nat) (mac : String) : Conn :=
  { organization := "org"
    network := "net1"
    timestamp := ⟨date, hour, minute, 0⟩
    event_type := "association"
    client_mac := mac
    client_description := "desc-" ++ mac
    device_serial := "sn"
    ssid := "ssid1"
    description := "" }

/-- The spec's loitering scenario: MAC `cc` connects at 09:00 and last
connects at 19:30 on the target date (day 10), duration 10.5 h. -/
def exLoiterConns : List Conn :=
  [mkConn 10 9 0 "cc", mkConn 10 19 30 "cc"]

/-- A regular device: MAC `aa` seen out of hours on baseline days 5 and 6
and once on the target night of day 10. -/
def exRegularConns : List Conn :=
  [mkConn 5 22 0 "aa", mkConn 6 22 0 "aa", mkConn 10 19 0 "aa"]

/-- A zero-baseline device: MAC `bb` seen out of hours only on the target
night of day 10. -/
def exTargetOnlyConns : List Conn :=
  [mkConn 10 20 0 "bb"]

/-- An extended-session device: MAC `dd` connects at 11:00 and 18:30 on the
target date (7.5 h elapsed, below the 8-hour loitering threshold). -/
def exExtConns : List Conn :=
  [mkConn 10 11 0 "dd", mkConn 10 18 30 "dd"]

/-- The classified record the analysis produces for MAC `bb` of
`exTargetOnlyConns` on day 10. -/
def exTargetOnlyInfo : DeviceInfo :=
  { mac := "bb"
    description := "desc-bb"
    target_date_connections := 1
    baseline_connections := 0
    days_seen_out_of_hours := 1
    networks := ["net1"]
    ssids := ["ssid1"]
    first_target_connection := some ⟨10, 20, 0, 0⟩
    last_target_connection := some ⟨10, 20, 0, 0⟩
    risk_explanation := explAnomalousNew 1
    risk_level := "ANOMALOUS_SUSPICIOUS"
    duration_hours := none
    arrived_hour := none
    departed_hour := none }

/-! ## Dictionary lemmas -/

theorem lookupD_dictUpsert {α : Type} (g : List (String × α)) (m : String)
    (init : α) (f : α → α) (k : String) :
    lookupD (dictUpsert g m init f) k =
      if k = m then some (f ((lookupD g m).getD init)) else lookupD g k := by
  induction g with
  | nil =>
    simp only [dictUpsert, lookupD]
    by_cases h : m = k
    · subst h; simp
    · rw [if_neg h, if_neg (fun hh => h hh.symm)]
  | cons p rest ih =>
    obtain ⟨k', v⟩ := p
    by_cases h1 : k' = m
    · subst h1
      simp only [dictUpsert, if_pos rfl, lookupD]
      by_cases h2 : k' = k
      · subst h2; simp
      · rw [if_neg h2, if_neg (fun hh => h2 hh.symm), if_neg h2]
    · simp only [dictUpsert, if_neg h1, lookupD]
      by_cases h2 : k' = k
      · subst h2
        rw [if_pos rfl, if_neg (fun hh : k' = m => h1 hh), if_pos rfl]
      · rw [if_neg h2, if_neg h2, ih]

theorem keysD_dictUpsert {α : Type} (g : List (String × α)) (m : String)
    (init : α) (f : α → α) :
    keysD (dictUpsert g m init f) =
      if m ∈ keysD g then keysD g else keysD g ++ [m] := by
  induction g with
  | nil => simp [dictUpsert, keysD]
  | cons p rest ih =>
    obtain ⟨k', v⟩ := p
    by_cases h1 : k' = m
    · subst h1
      simp [dictUpsert, keysD]
    · have h1' : ¬ m = k' := fun hh => h1 hh.symm
      rw [show dictUpsert ((k', v) :: rest) m init f =
          (k', v) :: dictUpsert rest m init f from by simp [dictUpsert, h1]]
      rw [show keysD ((k', v) :: dictUpsert rest m init f) =
          k' :: keysD (dictUpsert rest m init f) from rfl]
      rw [show keysD ((k', v) :: rest) = k' :: keysD rest from rfl]
      rw [ih]
      simp only [List.mem_cons, h1', false_or, List.cons_append]
      split <;> rfl

theorem nodup_keysD_dictUpsert {α : Type} {g : List (String × α)}
    (hg : (keysD g).Nodup) (m : String) (init : α) (f : α → α) :
    (keysD (dictUpsert g m init f)).Nodup := by
  rw [keysD_dictUpsert]
  by_cases h : m ∈ keysD g
  · simpa [h]
  · simpa [h, List.nodup_append] using hg

theorem mem_of_lookupD {α : Type} {g : List (String × α)} {m : String}
    {v : α} (h : lookupD g m = some v) : (m, v) ∈ g := by
  induction g with
  | nil => simp [lookupD] at h
  | cons p rest ih =>
    obtain ⟨k', w⟩ := p
    by_cases h1 : k' = m
    · subst h1
      simp [lookupD] at h
      rw [← h]
      exact List.mem_cons_self _ _
    · simp only [lookupD, if_neg h1] at h
      exact List.mem_cons_of_mem _ (ih h)

theorem lookupD_of_mem {α : Type} {g : List (String × α)} {m : String}
    {v : α} (hg : (keysD g).Nodup) (h : (m, v) ∈ g) :
    lookupD g m = some v := by
  induction g with
  | nil => simp at h
  | cons p rest ih =>
    obtain ⟨k', w⟩ := p
    simp only [keysD, List.map_cons, List.nodup_cons] at hg
    rcases List.mem_cons.mp h with h1 | h1
    · obtain ⟨hk, hv⟩ := Prod.mk.injEq m v k' w ▸ h1
      subst hk
      subst hv
      simp [lookupD]
    · have hk : k' ≠ m := by
        intro hh
        apply hg.1
        rw [hh]
        exact List.mem_map.mpr ⟨(m, v), h1, rfl⟩
      simp only [lookupD, if_neg hk]
      exact ih hg.2 h1

theorem mem_dictUpsert {α : Type} {g : List (String × α)} {m : String}
    {init : α} {f : α → α} {p : String × α}
    (h : p ∈ dictUpsert g m init f) : p ∈ g ∨ p.1 = m := by
  induction g with
  | nil =>
    simp only [dictUpsert, List.mem_singleton] at h
    rw [h]
    right
    rfl
  | cons q rest ih =>
    obtain ⟨k', v⟩ := q
    by_cases h1 : k' = m
    · subst h1
      rw [show dictUpsert ((k', v) :: rest) k' init f = (k', f v) :: rest from
        by simp [dictUpsert]] at h
      rcases List.mem_cons.mp h with h2 | h2
      · rw [h2]; right; rfl
      · left; exact List.mem_cons_of_mem _ h2
    · rw [show dictUpsert ((k', v) :: rest) m init f =
          (k', v) :: dictUpsert rest m init f from by simp [dictUpsert, h1]] at h
      rcases List.mem_cons.mp h with h2 | h2
      · rw [h2]; left; exact List.mem_cons_self _ _
      · rcases ih h2 with h3 | h3
        · left; exact List.mem_cons_of_mem _ h3
        · right; exact h3

/-! ## Sort lemmas -/

theorem mem_insertByTs {c x : Conn} {l : List Conn} :
    x ∈ insertByTs c l ↔ x = c ∨ x ∈ l := by
  induction l with
  | nil => simp [insertByTs]
  | cons d ds ih =>
    simp only [insertByTs]
    split
    · simp only [List.mem_cons, ih]
      exact or_left_comm
    · simp only [List.mem_cons]

theorem length_insertByTs (c : Conn) (l : List Conn) :
    (insertByTs c l).length = l.length + 1 := by
  induction l with
  | nil => simp [insertByTs]
  | cons d ds ih =>
    simp only [insertByTs]
    split
    · simp [ih]
    · simp

theorem mem_sortByTs_aux {x : Conn} :
    ∀ (l acc : List Conn),
      (x ∈ l.foldl (fun acc c => insertByTs c acc) acc ↔ x ∈ acc ∨ x ∈ l) := by
  intro l
  induction l with
  | nil => simp
  | cons c cs ih =>
    intro acc
    simp only [List.foldl_cons, List.mem_cons, ih, mem_insertByTs]
    tauto

theorem mem_sortByTs {x : Conn} {l : List Conn} :
    x ∈ sortByTs l ↔ x ∈ l := by
  simp [sortByTs, mem_sortByTs_aux]

theorem length_sortByTs_aux :
    ∀ (l acc : List Conn),
      (l.foldl (fun acc c => insertByTs c acc) acc).length =
        acc.length + l.length := by
  intro l
  induction l with
  | nil => simp
  | cons c cs ih =>
    intro acc
    simp [List.foldl_cons, ih, length_insertByTs]
    omega

theorem length_sortByTs (l : List Conn) :
    (sortByTs l).length = l.length := by
  simp [sortByTs, length_sortByTs_aux]

/-! ## Characterization of the single-day grouping -/

theorem lookup_groupFold_some (fs : List Conn) :
    ∀ (g : List (String × List Conn)) (k : String) (v : List Conn),
      lookupD g k = some v →
      lookupD
        (fs.foldl (fun g c => dictUpsert g c.client_mac [] (fun l => l ++ [c])) g) k =
        some (v ++ fs.filter fun c => decide (c.client_mac = k)) := by
  induction fs with
  | nil =>
    intro g k v h
    simpa using h
  | cons c fs ih =>
    intro g k v h
    simp only [List.foldl_cons]
    by_cases hc : c.client_mac = k
    · have hfilter : List.filter (fun c => decide (c.client_mac = k)) (c :: fs) =
          c :: List.filter (fun c => decide (c.client_mac = k)) fs := by
        simp [List.filter_cons, hc]
      rw [hfilter]
      have h2 : lookupD (dictUpsert g c.client_mac [] (fun l => l ++ [c])) k =
          some (v ++ [c]) := by
        rw [lookupD_dictUpsert, if_pos hc.symm, hc, h]
        rfl
      rw [ih _ k (v ++ [c]) h2]
      simp
    · have hfilter : List.filter (fun c => decide (c.client_mac = k)) (c :: fs) =
          List.filter (fun c => decide (c.client_mac = k)) fs := by
        simp [List.filter_cons, hc]
      rw [hfilter]
      have h2 : lookupD (dictUpsert g c.client_mac [] (fun l => l ++ [c])) k =
          some v := by
        rw [lookupD_dictUpsert, if_neg (fun hh => hc hh.symm), h]
      exact ih _ k v h2

theorem lookup_groupFold_none (fs : List Conn) :
    ∀ (g : List (String × List Conn)) (k : String),
      lookupD g k = none →
      lookupD
        (fs.foldl (fun g c => dictUpsert g c.client_mac [] (fun l => l ++ [c])) g) k =
        if fs.filter (fun c => decide (c.client_mac = k)) = [] then none
        else some (fs.filter fun c => decide (c.client_mac = k)) := by
  induction fs with
  | nil =>
    intro g k h
    simpa using h
  | cons c fs ih =>
    intro g k h
    simp only [List.foldl_cons]
    by_cases hc : c.client_mac = k
    · have hfilter : List.filter (fun c => decide (c.client_mac = k)) (c :: fs) =
          c :: List.filter (fun c => decide (c.client_mac = k)) fs := by
        simp [List.filter_cons, hc]
      rw [hfilter]
      have h2 : lookupD (dictUpsert g c.client_mac [] (fun l => l ++ [c])) k =
          some [c] := by
        rw [lookupD_dictUpsert, if_pos hc.symm, hc, h]
        rfl
      rw [lookup_groupFold_some fs _ k [c] h2]
      simp
    · have hfilter : List.filter (fun c => decide (c.client_mac = k)) (c :: fs) =
          List.filter (fun c => decide (c.client_mac = k)) fs := by
        simp [List.filter_cons, hc]
      rw [hfilter]
      have h2 : lookupD (dictUpsert g c.client_mac [] (fun l => l ++ [c])) k =
          none := by
        rw [lookupD_dictUpsert, if_neg (fun hh => hc hh.symm), h]
      exact ih _ k h2

theorem tdFiltered_filter_eq (conns : List Conn) (D : Nat) (m : String)
    (hm : m ≠ "") :
    (conns.filter fun c =>
        decide (c.timestamp.date = D) && decide (c.client_mac ≠ "")).filter
      (fun c => decide (c.client_mac = m)) = targetDayConns conns D m := by
  rw [List.filter_filter]
  apply List.filter_congr
  intro c _
  by_cases h1 : c.client_mac = m
  · simp [targetDayConns, h1, hm]
  · simp [targetDayConns, h1]

theorem lookupD_targetDayGroups (conns : List Conn) (D : Nat) (m : String)
    (hm : m ≠ "") :
    lookupD (targetDayGroups conns D) m =
      if targetDayConns conns D m = [] then none
      else some (targetDayConns conns D m) := by
  unfold targetDayGroups
  rw [lookup_groupFold_none _ [] m rfl, tdFiltered_filter_eq conns D m hm]

theorem nodup_keysD_groupFold (fs : List Conn) :
    ∀ g, (keysD g).Nodup →
      (keysD
        (fs.foldl (fun g c => dictUpsert g c.client_mac [] (fun l => l ++ [c])) g)).Nodup := by
  induction fs with
  | nil => intro g h; simpa
  | cons c fs ih =>
    intro g h
    exact ih _ (nodup_keysD_dictUpsert h _ _ _)

theorem nodup_keysD_targetDayGroups (conns : List Conn) (D : Nat) :
    (keysD (targetDayGroups conns D)).Nodup := by
  unfold targetDayGroups
  exact nodup_keysD_groupFold _ [] (by simp [keysD])

theorem mem_groupFold_ne (fs : List Conn) :
    ∀ g, (∀ p ∈ g, (p : String × List Conn).1 ≠ "") →
      (∀ c ∈ fs, c.client_mac ≠ "") →
      ∀ p ∈ fs.foldl (fun g c => dictUpsert g c.client_mac [] (fun l => l ++ [c])) g,
        p.1 ≠ "" := by
  induction fs with
  | nil =>
    intro g hg _ p hp
    exact hg p hp
  | cons c fs ih =>
    intro g hg hfs p hp
    refine ih _ ?_ (fun c' hc' => hfs c' (List.mem_cons_of_mem _ hc')) p hp
    intro q hq
    rcases mem_dictUpsert hq with h | h
    · exact hg q h
    · rw [h]
      exact hfs c (List.mem_cons_self _ _)

theorem mem_targetDayGroups_ne {conns : List Conn} {D : Nat}
    {p : String × List Conn} (hp : p ∈ targetDayGroups conns D) : p.1 ≠ "" := by
  unfold targetDayGroups at hp
  refine mem_groupFold_ne _ [] (by simp) ?_ p hp
  intro c hc
  simp only [List.mem_filter, Bool.and_eq_true, decide_eq_true_eq] at hc
  exact hc.2.2

theorem mem_targetDayGroups_iff {conns : List Conn} {D : Nat} {m : String}
    {l : List Conn} :
    (m, l) ∈ targetDayGroups conns D ↔
      m ≠ "" ∧ targetDayConns conns D m ≠ [] ∧ l = targetDayConns conns D m := by
  constructor
  · intro h
    have hm : m ≠ "" := mem_targetDayGroups_ne h
    have h2 := lookupD_of_mem (nodup_keysD_targetDayGroups conns D) h
    rw [lookupD_targetDayGroups conns D m hm] at h2
    by_cases h3 : targetDayConns conns D m = []
    · rw [if_pos h3] at h2
      exact absurd h2 (by simp)
    · rw [if_neg h3] at h2
      exact ⟨hm, h3, (Option.some.injEq _ _ ▸ h2).symm⟩
  · rintro ⟨hm, h3, rfl⟩
    apply mem_of_lookupD
    rw [lookupD_targetDayGroups conns D m hm, if_neg h3]

/-! ## Characterization of the per-device aggregation -/

theorem lookup_dpFold_some (D : Nat) (fs : List Conn) :
    ∀ (g : List (String × DevData)) (k : String) (v : DevData), k ≠ "" →
      lookupD g k = some v →
      lookupD
        (fs.foldl
          (fun g c =>
            if c.client_mac = "" then g
            else dictUpsert g c.client_mac (freshData c.client_description)
              (fun d => updData D d c)) g) k =
        some ((fs.filter fun c => decide (c.client_mac = k)).foldl (updData D) v) := by
  induction fs with
  | nil =>
    intro g k v _ h
    simpa using h
  | cons c fs ih =>
    intro g k v hk h
    simp only [List.foldl_cons]
    by_cases hc : c.client_mac = k
    · have hcne : ¬ c.client_mac = "" := by rw [hc]; exact hk
      have hfilter : List.filter (fun c => decide (c.client_mac = k)) (c :: fs) =
          c :: List.filter (fun c => decide (c.client_mac = k)) fs := by
        simp [List.filter_cons, hc]
      rw [hfilter, if_neg hcne]
      have h2 : lookupD
          (dictUpsert g c.client_mac (freshData c.client_description)
            (fun d => updData D d c)) k = some (updData D v c) := by
        rw [lookupD_dictUpsert, if_pos hc.symm, hc, h]
        rfl
      rw [ih _ k (updData D v c) hk h2, List.foldl_cons]
    · have hfilter : List.filter (fun c => decide (c.client_mac = k)) (c :: fs) =
          List.filter (fun c => decide (c.client_mac = k)) fs := by
        simp [List.filter_cons, hc]
      rw [hfilter]
      by_cases hce : c.client_mac = ""
      · rw [if_pos hce]
        exact ih _ k v hk h
      · rw [if_neg hce]
        have h2 : lookupD
            (dictUpsert g c.client_mac (freshData c.client_description)
              (fun d => updData D d c)) k = some v := by
          rw [lookupD_dictUpsert, if_neg (fun hh => hc hh.symm), h]
        exact ih _ k v hk h2

theorem lookup_dpFold_none (D : Nat) (fs : List Conn) :
    ∀ (g : List (String × DevData)) (k : String), k ≠ "" →
      lookupD g k = none →
      lookupD
        (fs.foldl
          (fun g c =>
            if c.client_mac = "" then g
            else dictUpsert g c.client_mac (freshData c.client_description)
              (fun d => updData D d c)) g) k =
        aggSpec D (fs.filter fun c => decide (c.client_mac = k)) := by
  induction fs with
  | nil =>
    intro g k _ h
    simpa using h
  | cons c fs ih =>
    intro g k hk h
    simp only [List.foldl_cons]
    by_cases hc : c.client_mac = k
    · have hcne : ¬ c.client_mac = "" := by rw [hc]; exact hk
      have hfilter : List.filter (fun c => decide (c.client_mac = k)) (c :: fs) =
          c :: List.filter (fun c => decide (c.client_mac = k)) fs := by
        simp [List.filter_cons, hc]
      rw [hfilter, if_neg hcne]
      have h2 : lookupD
          (dictUpsert g c.client_mac (freshData c.client_description)
            (fun d => updData D d c)) k =
          some (updData D (freshData c.client_description) c) := by
        rw [lookupD_dictUpsert, if_pos hc.symm, hc, h]
        rfl
      rw [lookup_dpFold_some D fs _ k _ hk h2]
      simp [aggSpec, List.foldl_cons]
    · have hfilter : List.filter (fun c => decide (c.client_mac = k)) (c :: fs) =
          List.filter (fun c => decide (c.client_mac = k)) fs := by
        simp [List.filter_cons, hc]
      rw [hfilter]
      by_cases hce : c.client_mac = ""
      · rw [if_pos hce]
        exact ih _ k hk h
      · rw [if_neg hce]
        have h2 : lookupD
            (dictUpsert g c.client_mac (freshData c.client_description)
              (fun d => updData D d c)) k = none := by
          rw [lookupD_dictUpsert, if_neg (fun hh => hc hh.symm), h]
        exact ih _ k hk h2

theorem oohConns_filter_eq (conns : List Conn) (m : String) :
    (oohConns conns).filter (fun c => decide (c.client_mac = m)) =
      macOohStream conns m := rfl

theorem lookupD_devicePatterns (conns : List Conn) (D : Nat) (m : String)
    (hm : m ≠ "") :
    lookupD (devicePatterns conns D) m = aggSpec D (macOohStream conns m) := by
  unfold devicePatterns
  rw [lookup_dpFold_none D _ [] m hm rfl, oohConns_filter_eq]

theorem nodup_keysD_dpFold (D : Nat) (fs : List Conn) :
    ∀ g, (keysD g).Nodup →
      (keysD
        (fs.foldl
          (fun g c =>
            if c.client_mac = "" then g
            else dictUpsert g c.client_mac (freshData c.client_description)
              (fun d => updData D d c)) g)).Nodup := by
  induction fs with
  | nil => intro g h; simpa
  | cons c fs ih =>
    intro g h
    simp only [List.foldl_cons]
    by_cases hce : c.client_mac = ""
    · rw [if_pos hce]
      exact ih _ h
    · rw [if_neg hce]
      exact ih _ (nodup_keysD_dictUpsert h _ _ _)

theorem nodup_keysD_devicePatterns (conns : List Conn) (D : Nat) :
    (keysD (devicePatterns conns D)).Nodup := by
  unfold devicePatterns
  exact nodup_keysD_dpFold D _ [] (by simp [keysD])

theorem mem_dpFold_ne (D : Nat) (fs : List Conn) :
    ∀ g, (∀ p ∈ g, (p : String × DevData).1 ≠ "") →
      ∀ p ∈ fs.foldl
        (fun g c =>
          if c.client_mac = "" then g
          else dictUpsert g c.client_mac (freshData c.client_description)
            (fun d => updData D d c)) g,
        p.1 ≠ "" := by
  induction fs with
  | nil =>
    intro g hg p hp
    exact hg p hp
  | cons c fs ih =>
    intro g hg p hp
    simp only [List.foldl_cons] at hp
    by_cases hce : c.client_mac = ""
    · rw [if_pos hce] at hp
      exact ih _ hg p hp
    · rw [if_neg hce] at hp
      refine ih _ ?_ p hp
      intro q hq
      rcases mem_dictUpsert hq with h | h
      · exact hg q h
      · rw [h]
        exact hce

theorem mem_devicePatterns_ne {conns : List Conn} {D : Nat}
    {p : String × DevData} (hp : p ∈ devicePatterns conns D) : p.1 ≠ "" := by
  unfold devicePatterns at hp
  exact mem_dpFold_ne D _ [] (by simp) p hp

theorem mem_devicePatterns_iff {conns : List Conn} {D : Nat} {m : String}
    {d : DevData} :
    (m, d) ∈ devicePatterns conns D ↔
      m ≠ "" ∧ aggSpec D (macOohStream conns m) = some d := by
  constructor
  · intro h
    have hm : m ≠ "" := mem_devicePatterns_ne h
    have h2 := lookupD_of_mem (nodup_keysD_devicePatterns conns D) h
    rw [lookupD_devicePatterns conns D m hm] at h2
    exact ⟨hm, h2⟩
  · rintro ⟨hm, h2⟩
    apply mem_of_lookupD
    rw [lookupD_devicePatterns conns D m hm, h2]

/-! ## The aggregate's target and baseline buckets -/

theorem updData_target (D : Nat) (d : DevData) (c : Conn) :
    (updData D d c).target_date_connections =
      if isTargetCycle D c then d.target_date_connections ++ [c]
      else d.target_date_connections := by
  unfold updData
  by_cases h : isTargetCycle D c = true
  · simp [h]
  · simp [h]

theorem updData_baseline (D : Nat) (d : DevData) (c : Conn) :
    (updData D d c).baseline_connections =
      if isTargetCycle D c then d.baseline_connections
      else d.baseline_connections ++ [c] := by
  unfold updData
  by_cases h : isTargetCycle D c = true
  · simp [h]
  · simp [h]

theorem foldl_updData_target (D : Nat) (l : List Conn) :
    ∀ v : DevData,
      (l.foldl (updData D) v).target_date_connections =
        v.target_date_connections ++ l.filter (isTargetCycle D) := by
  induction l with
  | nil => intro v; simp
  | cons c l ih =>
    intro v
    rw [List.foldl_cons, ih (updData D v c), updData_target]
    by_cases h : isTargetCycle D c = true
    · simp [List.filter_cons, h]
    · simp [List.filter_cons, h]

theorem foldl_updData_baseline (D : Nat) (l : List Conn) :
    ∀ v : DevData,
      (l.foldl (updData D) v).baseline_connections =
        v.baseline_connections ++ l.filter (fun c => !(isTargetCycle D c)) := by
  induction l with
  | nil => intro v; simp
  | cons c l ih =>
    intro v
    rw [List.foldl_cons, ih (updData D v c), updData_baseline]
    by_cases h : isTargetCycle D c = true
    · simp [List.filter_cons, h]
    · simp [List.filter_cons, h]

theorem devData_target_of_mem {conns : List Conn} {D : Nat} {m : String}
    {d : DevData} (h : (m, d) ∈ devicePatterns conns D) :
    d.target_date_connections = (macOohStream conns m).filter (isTargetCycle D) := by
  obtain ⟨-, h2⟩ := mem_devicePatterns_iff.mp h
  rcases hs : macOohStream conns m with _ | ⟨c, l⟩
  · rw [hs] at h2
    simp [aggSpec] at h2
  · rw [hs] at h2
    simp only [aggSpec, Option.some.injEq] at h2
    rw [← h2, foldl_updData_target]
    simp [freshData]

theorem devData_baseline_of_mem {conns : List Conn} {D : Nat} {m : String}
    {d : DevData} (h : (m, d) ∈ devicePatterns conns D) :
    d.baseline_connections =
      (macOohStream conns m).filter (fun c => !(isTargetCycle D c)) := by
  obtain ⟨-, h2⟩ := mem_devicePatterns_iff.mp h
  rcases hs : macOohStream conns m with _ | ⟨c, l⟩
  · rw [hs] at h2
    simp [aggSpec] at h2
  · rw [hs] at h2
    simp only [aggSpec, Option.some.injEq] at h2
    rw [← h2, foldl_updData_baseline]
    simp [freshData]

/-! ## Characterization of the loitering detector -/

theorem eight_lt_div_iff (n : ℤ) :
    ((8 : ℚ) < (n : ℚ) / 3600) ↔ 28800 < n := by
  rw [lt_div_iff₀ (by norm_num : (0 : ℚ) < 3600)]
  norm_cast

theorem loiterEmit_mac {m : String} {l : List Conn} {ld : LoiterRec}
    (h : loiterEmit m l = some ld) : ld.mac = m := by
  simp only [loiterEmit] at h
  split at h
  · exact absurd h (by simp)
  · split at h
    · rw [show ld = loiterRecOf m l from by
        rw [Option.some.injEq] at h; exact h.symm]
      rfl
    · exact absurd h (by simp)

theorem loiterEmit_eq_some_iff {m : String} {l : List Conn} {ld : LoiterRec} :
    loiterEmit m l = some ld ↔
      (2 ≤ l.length ∧
        6 ≤ (firstConn l).timestamp.hour ∧
        (firstConn l).timestamp.hour < 18 ∧
        18 ≤ (lastConn l).timestamp.hour ∧
        28800 < elapsedSec l) ∧ ld = loiterRecOf m l := by
  simp only [loiterEmit]
  split_ifs with h1 h2
  · constructor
    · intro h
      exact absurd h (by simp)
    · rintro ⟨⟨hlen, -⟩, -⟩
      omega
  · simp only [Bool.and_eq_true, decide_eq_true_eq] at h2
    obtain ⟨⟨⟨h6, h18⟩, hlast⟩, hdur⟩ := h2
    simp only [Option.some.injEq]
    constructor
    · intro h
      refine ⟨⟨by omega, h6, h18, hlast, (eight_lt_div_iff _).mp hdur⟩, h.symm⟩
    · rintro ⟨-, rfl⟩
      rfl
  · constructor
    · intro h
      exact absurd h (by simp)
    · rintro ⟨⟨-, h6, h18, hlast, hsec⟩, -⟩
      exfalso
      apply h2
      simp only [Bool.and_eq_true, decide_eq_true_eq]
      exact ⟨⟨⟨h6, h18⟩, hlast⟩, (eight_lt_div_iff _).mpr hsec⟩

theorem mem_detect_iff {conns : List Conn} {D : Nat} {ld : LoiterRec} :
    ld ∈ detect_loitering_patterns conns D ↔
      ld.mac ≠ "" ∧
      loiterEmit ld.mac (targetDayConns conns D ld.mac) = some ld := by
  unfold detect_loitering_patterns
  rw [List.mem_filterMap]
  constructor
  · rintro ⟨⟨m, l⟩, hg, he⟩
    obtain ⟨hm, -, rfl⟩ := mem_targetDayGroups_iff.mp hg
    have hmac := loiterEmit_mac he
    rw [hmac]
    exact ⟨hm, he⟩
  · rintro ⟨hm, he⟩
    have hlen : 2 ≤ (targetDayConns conns D ld.mac).length :=
      (loiterEmit_eq_some_iff.mp he).1.1
    have hne : targetDayConns conns D ld.mac ≠ [] := by
      intro hh
      rw [hh] at hlen
      simp at hlen
    exact ⟨(ld.mac, targetDayConns conns D ld.mac),
      mem_targetDayGroups_iff.mpr ⟨hm, hne, rfl⟩, he⟩

theorem detectHasMac_iff (conns : List Conn) (D : Nat) (m : String)
    (hm : m ≠ "") :
    (∃ ld ∈ detect_loitering_patterns conns D, ld.mac = m) ↔
      loiterCond conns D m := by
  constructor
  · rintro ⟨ld, hld, rfl⟩
    obtain ⟨-, he⟩ := mem_detect_iff.mp hld
    obtain ⟨⟨h1, h2, h3, h4, h5⟩, -⟩ := loiterEmit_eq_some_iff.mp he
    exact ⟨h1, h2, h3, h4, h5⟩
  · intro hc
    obtain ⟨h1, h2, h3, h4, h5⟩ := hc
    refine ⟨loiterRecOf m (targetDayConns conns D m), ?_, rfl⟩
    apply mem_detect_iff.mpr
    refine ⟨hm, ?_⟩
    exact loiterEmit_eq_some_iff.mpr ⟨⟨h1, h2, h3, h4, h5⟩, rfl⟩

theorem detect_macs_sublist (gs : List (String × List Conn)) :
    ((gs.filterMap fun g => loiterEmit g.1 g.2).map
      (fun ld => ld.mac)).Sublist (keysD gs) := by
  induction gs with
  | nil => simp [keysD]
  | cons g gs ih =>
    rw [show keysD (g :: gs) = g.1 :: keysD gs from rfl]
    rcases he : loiterEmit g.1 g.2 with _ | ld
    · simp only [List.filterMap_cons, he]
      exact ih.cons g.1
    · simp only [List.filterMap_cons, he, List.map_cons, loiterEmit_mac he]
      exact ih.cons₂ g.1

theorem detect_macs_nodup (conns : List Conn) (D : Nat) :
    ((detect_loitering_patterns conns D).map (fun ld => ld.mac)).Nodup :=
  (nodup_keysD_targetDayGroups conns D).sublist
    (detect_macs_sublist (targetDayGroups conns D))

theorem find?_eq_self_of_nodup_map {α β : Type} [DecidableEq β] (f : α → β)
    (l : List α) (hn : (l.map f).Nodup) (x : α) (hx : x ∈ l) :
    l.find? (fun y => decide (f y = f x)) = some x := by
  induction l with
  | nil => simp at hx
  | cons y ys ih =>
    simp only [List.map_cons, List.nodup_cons] at hn
    by_cases h : f y = f x
    · have hxy : x = y := by
        rcases List.mem_cons.mp hx with h1 | h1
        · exact h1
        · exact absurd (h ▸ List.mem_map.mpr ⟨x, h1, rfl⟩) hn.1
      rw [List.find?_cons_of_pos _ (by simp [h])]
      rw [hxy]
    · have hx2 : x ∈ ys := by
        rcases List.mem_cons.mp hx with h1 | h1
        · exact absurd (h1 ▸ rfl) h
        · exact h1
      rw [List.find?_cons_of_neg _ (by simp [h])]
      exact ih hn.2 hx2

theorem loiterLookup_of_mem {conns : List Conn} {D : Nat} {ld : LoiterRec}
    (h : ld ∈ detect_loitering_patterns conns D) :
    loiterLookup (detect_loitering_patterns conns D) ld.mac = some ld := by
  have h2 := find?_eq_self_of_nodup_map (fun l : LoiterRec => l.mac)
    (detect_loitering_patterns conns D) (detect_macs_nodup conns D) ld h
  unfold loiterLookup
  exact h2

theorem loiterLookup_eq_none_iff {lds : List LoiterRec} {m : String} :
    loiterLookup lds m = none ↔ ∀ ld ∈ lds, ld.mac ≠ m := by
  unfold loiterLookup
  rw [List.find?_eq_none]
  simp

/-! ## Characterization of the extended-session detector -/

theorem extEmit_mac {m : String} {l : List Conn} {e : ExtRec}
    (h : extEmit m l = some e) : e.mac = m := by
  simp only [extEmit] at h
  split at h
  · exact absurd h (by simp)
  · split at h
    · rw [show e = extRecOf m l from by
        rw [Option.some.injEq] at h; exact h.symm]
      rfl
    · exact absurd h (by simp)

theorem extEmit_eq_some_iff {m : String} {l : List Conn} {e : ExtRec} :
    extEmit m l = some e ↔
      (2 ≤ l.length ∧
        is_business_hours (some (firstConn l).timestamp) = true ∧
        18 ≤ (lastConn l).timestamp.hour) ∧ e = extRecOf m l := by
  simp only [extEmit]
  split_ifs with h1 h2
  · constructor
    · intro h
      exact absurd h (by simp)
    · rintro ⟨⟨hlen, -⟩, -⟩
      omega
  · simp only [Bool.and_eq_true, decide_eq_true_eq] at h2
    obtain ⟨hb, hl⟩ := h2
    simp only [Option.some.injEq]
    constructor
    · intro h
      exact ⟨⟨by omega, hb, hl⟩, h.symm⟩
    · rintro ⟨-, rfl⟩
      rfl
  · constructor
    · intro h
      exact absurd h (by simp)
    · rintro ⟨⟨-, hb, hl⟩, -⟩
      exfalso
      apply h2
      simp only [Bool.and_eq_true, decide_eq_true_eq]
      exact ⟨hb, hl⟩

theorem mem_extSessions_iff {conns : List Conn} {D : Nat} {e : ExtRec} :
    e ∈ analyze_extended_sessions conns D ↔
      e.mac ≠ "" ∧ extEmit e.mac (targetDayConns conns D e.mac) = some e := by
  unfold analyze_extended_sessions
  rw [List.mem_filterMap]
  constructor
  · rintro ⟨⟨m, l⟩, hg, he⟩
    obtain ⟨hm, -, rfl⟩ := mem_targetDayGroups_iff.mp hg
    have hmac := extEmit_mac he
    rw [hmac]
    exact ⟨hm, he⟩
  · rintro ⟨hm, he⟩
    have hlen : 2 ≤ (targetDayConns conns D e.mac).length :=
      (extEmit_eq_some_iff.mp he).1.1
    have hne : targetDayConns conns D e.mac ≠ [] := by
      intro hh
      rw [hh] at hlen
      simp at hlen
    exact ⟨(e.mac, targetDayConns conns D e.mac),
      mem_targetDayGroups_iff.mpr ⟨hm, hne, rfl⟩, he⟩

theorem extHasMac_iff (conns : List Conn) (D : Nat) (m : String)
    (hm : m ≠ "") :
    (∃ e ∈ analyze_extended_sessions conns D, e.mac = m) ↔
      extCond conns D m := by
  constructor
  · rintro ⟨e, he, rfl⟩
    obtain ⟨-, hemit⟩ := mem_extSessions_iff.mp he
    obtain ⟨⟨h1, h2, h3⟩, -⟩ := extEmit_eq_some_iff.mp hemit
    exact ⟨h1, h2, h3⟩
  · intro hc
    obtain ⟨h1, h2, h3⟩ := hc
    refine ⟨extRecOf m (targetDayConns conns D m), ?_, rfl⟩
    apply mem_extSessions_iff.mpr
    exact ⟨hm, extEmit_eq_some_iff.mpr ⟨⟨h1, h2, h3⟩, rfl⟩⟩

/-! ## Characterization of the classification loop -/

theorem processEntry_target (lds : List LoiterRec) (a : Analysis)
    (e : String × DevData) :
    (processEntry lds a e).target_date_devices =
      a.target_date_devices ++ targetContrib lds e := by
  simp only [processEntry, targetContrib]
  by_cases h : 0 < e.2.target_date_connections.length
  · simp only [if_pos h]
    rcases loiterLookup lds e.1 with _ | ld
    · split_ifs <;> rfl
    · rfl
  · simp only [if_neg h]
    split_ifs <;> simp

theorem processEntry_anomalous (lds : List LoiterRec) (a : Analysis)
    (e : String × DevData) :
    (processEntry lds a e).anomalous_devices =
      a.anomalous_devices ++ anomContrib lds e := by
  simp only [processEntry, anomContrib]
  by_cases h : 0 < e.2.target_date_connections.length
  · simp only [if_pos h]
    rcases loiterLookup lds e.1 with _ | ld
    · split_ifs <;> simp
    · rfl
  · simp only [if_neg h]
    split_ifs <;> simp

theorem processEntry_regular (lds : List LoiterRec) (a : Analysis)
    (e : String × DevData) :
    (processEntry lds a e).baseline_regular_devices =
      a.baseline_regular_devices ++ regContrib lds e := by
  simp only [processEntry, regContrib, baselineOnlyInfo]
  by_cases h : 0 < e.2.target_date_connections.length
  · simp only [if_pos h]
    rcases loiterLookup lds e.1 with _ | ld
    · split_ifs <;> simp
    · simp
  · simp only [if_neg h]
    split_ifs <;> simp

theorem processEntry_only (lds : List LoiterRec) (a : Analysis)
    (e : String × DevData) :
    (processEntry lds a e).baseline_only_devices =
      a.baseline_only_devices ++ onlyContrib e := by
  simp only [processEntry, onlyContrib, baselineOnlyInfo]
  by_cases h : 0 < e.2.target_date_connections.length
  · simp only [if_pos h]
    rcases loiterLookup lds e.1 with _ | ld
    · split_ifs <;> simp
    · simp
  · simp only [if_neg h]
    split_ifs <;> simp

theorem processEntry_loitering (lds : List LoiterRec) (a : Analysis)
    (e : String × DevData) :
    (processEntry lds a e).loitering_devices = a.loitering_devices := by
  simp only [processEntry]
  by_cases h : 0 < e.2.target_date_connections.length
  · simp only [if_pos h]
    rcases loiterLookup lds e.1 with _ | ld
    · split_ifs <;> rfl
    · rfl
  · simp only [if_neg h]
    split_ifs <;> rfl

theorem foldl_bucket {β : Type} (step : Analysis → β → Analysis)
    (proj : Analysis → List DeviceInfo) (contrib : β → List DeviceInfo)
    (H : ∀ a e, proj (step a e) = proj a ++ contrib e) :
    ∀ (es : List β) (a : Analysis),
      proj (es.foldl step a) = proj a ++ es.flatMap contrib := by
  intro es
  induction es with
  | nil => intro a; simp
  | cons e es ih =>
    intro a
    rw [List.foldl_cons, ih, H, List.flatMap_cons, List.append_assoc]

theorem analyze_target_eq (conns : List Conn) (D : Nat) :
    (analyze_out_of_hours_patterns conns D).target_date_devices =
      (devicePatterns conns D).flatMap
        (targetContrib (detect_loitering_patterns conns D)) := by
  unfold analyze_out_of_hours_patterns
  rw [foldl_bucket _ (fun a => a.target_date_devices) _
    (processEntry_target _)]
  rfl

theorem analyze_anomalous_eq (conns : List Conn) (D : Nat) :
    (analyze_out_of_hours_patterns conns D).anomalous_devices =
      (devicePatterns conns D).flatMap
        (anomContrib (detect_loitering_patterns conns D)) := by
  unfold analyze_out_of_hours_patterns
  rw [foldl_bucket _ (fun a => a.anomalous_devices) _
    (processEntry_anomalous _)]
  rfl

theorem analyze_regular_eq (conns : List Conn) (D : Nat) :
    (analyze_out_of_hours_patterns conns D).baseline_regular_devices =
      (devicePatterns conns D).flatMap
        (regContrib (detect_loitering_patterns conns D)) := by
  unfold analyze_out_of_hours_patterns
  rw [foldl_bucket _ (fun a => a.baseline_regular_devices) _
    (processEntry_regular _)]
  rfl

theorem analyze_only_eq (conns : List Conn) (D : Nat) :
    (analyze_out_of_hours_patterns conns D).baseline_only_devices =
      (devicePatterns conns D).flatMap onlyContrib := by
  unfold analyze_out_of_hours_patterns
  rw [foldl_bucket _ (fun a => a.baseline_only_devices) _
    (fun a e => processEntry_only (detect_loitering_patterns conns D) a e)]
  rfl

theorem foldl_loitering (lds : List LoiterRec) :
    ∀ (es : List (String × DevData)) (a : Analysis),
      (es.foldl (processEntry lds) a).loitering_devices =
        a.loitering_devices := by
  intro es
  induction es with
  | nil => intro a; rfl
  | cons e es ih =>
    intro a
    rw [List.foldl_cons, ih, processEntry_loitering]

theorem analyze_loitering_eq (conns : List Conn) (D : Nat) :
    (analyze_out_of_hours_patterns conns D).loitering_devices =
      detect_loitering_patterns conns D := by
  unfold analyze_out_of_hours_patterns
  rw [foldl_loitering]

/-! ## Properties of the classified record -/

theorem classifiedInfo_mac (lds : List LoiterRec) (m : String) (d : DevData) :
    (classifiedInfo lds m d).mac = m := by
  simp only [classifiedInfo, baseInfo]
  rcases loiterLookup lds m with _ | ld
  · split_ifs <;> rfl
  · rfl

theorem classifiedInfo_baseline (lds : List LoiterRec) (m : String)
    (d : DevData) :
    (classifiedInfo lds m d).baseline_connections =
      d.baseline_connections.length := by
  simp only [classifiedInfo, baseInfo]
  rcases loiterLookup lds m with _ | ld
  · split_ifs <;> rfl
  · rfl

theorem classifiedInfo_days (lds : List LoiterRec) (m : String) (d : DevData) :
    (classifiedInfo lds m d).days_seen_out_of_hours = d.all_dates.length := by
  simp only [classifiedInfo, baseInfo]
  rcases loiterLookup lds m with _ | ld
  · split_ifs <;> rfl
  · rfl

theorem classifiedInfo_target_count (lds : List LoiterRec) (m : String)
    (d : DevData) :
    (classifiedInfo lds m d).target_date_connections =
      d.target_date_connections.length := by
  simp only [classifiedInfo, baseInfo]
  rcases loiterLookup lds m with _ | ld
  · split_ifs <;> rfl
  · rfl

theorem classifiedInfo_risk (lds : List LoiterRec) (m : String) (d : DevData) :
    (classifiedInfo lds m d).risk_level =
      specPolicy (loiterLookup lds m).isSome d.baseline_connections.length
        d.all_dates.length := by
  simp only [classifiedInfo, specPolicy]
  rcases h : loiterLookup lds m with _ | ld
  · simp only [Option.isSome_none, Bool.false_eq_true, if_false]
    split_ifs <;> rfl
  · simp

theorem classifiedInfo_expl_some {lds : List LoiterRec} {m : String}
    {ld : LoiterRec} (d : DevData) (h : loiterLookup lds m = some ld) :
    (classifiedInfo lds m d).risk_explanation = ld.risk_explanation := by
  simp [classifiedInfo, h]

theorem mem_analyze_target_iff {conns : List Conn} {D : Nat} {r : DeviceInfo} :
    r ∈ (analyze_out_of_hours_patterns conns D).target_date_devices ↔
      ∃ m d, (m, d) ∈ devicePatterns conns D ∧
        0 < d.target_date_connections.length ∧
        r = classifiedInfo (detect_loitering_patterns conns D) m d := by
  rw [analyze_target_eq, List.mem_flatMap]
  constructor
  · rintro ⟨⟨m, d⟩, hmem, hr⟩
    unfold targetContrib at hr
    by_cases h : 0 < d.target_date_connections.length
    · rw [if_pos h] at hr
      simp only [List.mem_singleton] at hr
      exact ⟨m, d, hmem, h, hr⟩
    · rw [if_neg h] at hr
      simp at hr
  · rintro ⟨m, d, hmem, h, rfl⟩
    exact ⟨(m, d), hmem, by simp [targetContrib, h]⟩

theorem classifiedInfo_mem_target {conns : List Conn} {D : Nat} {m : String}
    {d : DevData} (hmem : (m, d) ∈ devicePatterns conns D)
    (htc : 0 < d.target_date_connections.length) :
    classifiedInfo (detect_loitering_patterns conns D) m d ∈
      (analyze_out_of_hours_patterns conns D).target_date_devices :=
  mem_analyze_target_iff.mpr ⟨m, d, hmem, htc, rfl⟩

theorem classifiedInfo_mem_anomalous {conns : List Conn} {D : Nat}
    {m : String} {d : DevData} (hmem : (m, d) ∈ devicePatterns conns D)
    (htc : 0 < d.target_date_connections.length)
    (hcase : (loiterLookup (detect_loitering_patterns conns D) m).isSome = true ∨
      d.baseline_connections.length = 0 ∨
      (¬ (1 ≤ d.baseline_connections.length ∧ 2 ≤ d.all_dates.length) ∧
        ¬ 3 ≤ d.baseline_connections.length)) :
    classifiedInfo (detect_loitering_patterns conns D) m d ∈
      (analyze_out_of_hours_patterns conns D).anomalous_devices := by
  rw [analyze_anomalous_eq, List.mem_flatMap]
  refine ⟨(m, d), hmem, ?_⟩
  unfold anomContrib
  simp only [if_pos htc]
  rcases h : loiterLookup (detect_loitering_patterns conns D) m with _ | ld
  · rcases hcase with h1 | h1 | h1
    · rw [h] at h1
      simp at h1
    · simp [h1]
    · by_cases hbc : d.baseline_connections.length = 0
      · simp [hbc]
      · rw [if_neg hbc, if_neg h1.1, if_neg h1.2]
        simp
  · simp

theorem classifiedInfo_mem_regular {conns : List Conn} {D : Nat}
    {m : String} {d : DevData} (hmem : (m, d) ∈ devicePatterns conns D)
    (htc : 0 < d.target_date_connections.length)
    (hnone : loiterLookup (detect_loitering_patterns conns D) m = none)
    (hbc : d.baseline_connections.length ≠ 0)
    (hcase : (1 ≤ d.baseline_connections.length ∧ 2 ≤ d.all_dates.length) ∨
      3 ≤ d.baseline_connections.length) :
    classifiedInfo (detect_loitering_patterns conns D) m d ∈
      (analyze_out_of_hours_patterns conns D).baseline_regular_devices := by
  rw [analyze_regular_eq, List.mem_flatMap]
  refine ⟨(m, d), hmem, ?_⟩
  unfold regContrib
  simp only [if_pos htc, hnone]
  rw [if_neg hbc]
  by_cases h1 : 1 ≤ d.baseline_connections.length ∧ 2 ≤ d.all_dates.length
  · rw [if_pos h1]
    simp
  · rw [if_neg h1]
    rcases hcase with h2 | h2
    · exact absurd h2 h1
    · rw [if_pos h2]
      simp

/-! ## Deduplication lemmas -/

theorem dedupAux_sublist :
    ∀ (es : List RawEvent) (seen : List (String × String × String)),
      (dedupAux seen es).Sublist es := by
  intro es
  induction es with
  | nil => intro seen; simp [dedupAux]
  | cons e es ih =>
    intro seen
    simp only [dedupAux]
    split
    · exact (ih seen).cons e
    · exact (ih _).cons₂ e

theorem filter_dedupAux (k : String × String × String) :
    ∀ (es : List RawEvent) (seen : List (String × String × String)),
      (dedupAux seen es).filter (fun e => decide (eventKey e = k)) =
        if k ∈ seen then []
        else (es.filter (fun e => decide (eventKey e = k))).take 1 := by
  intro es
  induction es with
  | nil =>
    intro seen
    simp only [dedupAux, List.filter_nil, List.take_nil]
    split <;> rfl
  | cons e es ih =>
    intro seen
    simp only [dedupAux]
    by_cases hseen : eventKey e ∈ seen
    · rw [if_pos hseen, ih seen]
      by_cases hk : k ∈ seen
      · simp [hk]
      · have hne : ¬ (eventKey e = k) := fun hh => hk (hh ▸ hseen)
        rw [if_neg hk, if_neg hk]
        simp [List.filter_cons, hne]
    · rw [if_neg hseen]
      by_cases hk : eventKey e = k
      · have hk2 : k ∈ eventKey e :: seen := by
          rw [← hk]
          exact List.mem_cons_self _ _
        have hks : ¬ k ∈ seen := fun hh => hseen (hk ▸ hh)
        rw [if_neg hks]
        have hfe : List.filter (fun e => decide (eventKey e = k))
            (e :: dedupAux (eventKey e :: seen) es) =
            e :: List.filter (fun e => decide (eventKey e = k))
              (dedupAux (eventKey e :: seen) es) := by
          simp [List.filter_cons, hk]
        rw [hfe, ih (eventKey e :: seen), if_pos hk2]
        have hfc : List.filter (fun e => decide (eventKey e = k)) (e :: es) =
            e :: List.filter (fun e => decide (eventKey e = k)) es := by
          simp [List.filter_cons, hk]
        rw [hfc]
        rfl
      · have hfe : List.filter (fun e => decide (eventKey e = k))
            (e :: dedupAux (eventKey e :: seen) es) =
            List.filter (fun e => decide (eventKey e = k))
              (dedupAux (eventKey e :: seen) es) := by
          simp [List.filter_cons, hk]
        have hfc : List.filter (fun e => decide (eventKey e = k)) (e :: es) =
            List.filter (fun e => decide (eventKey e = k)) es := by
          simp [List.filter_cons, hk]
        rw [hfe, hfc, ih (eventKey e :: seen)]
        by_cases hks : k ∈ seen
        · rw [if_pos (List.mem_cons_of_mem _ hks), if_pos hks]
        · have hks2 : ¬ k ∈ eventKey e :: seen := by
            intro hh
            rcases List.mem_cons.mp hh with h1 | h1
            · exact hk h1.symm
            · exact hks h1
          rw [if_neg hks2, if_neg hks]

theorem mem_dedupAux_not_seen :
    ∀ (es : List RawEvent) (seen : List (String × String × String))
      (e : RawEvent), e ∈ dedupAux seen es → eventKey e ∉ seen := by
  intro es
  induction es with
  | nil =>
    intro seen e he
    simp [dedupAux] at he
  | cons e' es ih =>
    intro seen e he
    simp only [dedupAux] at he
    split at he
    · exact ih seen e he
    · rcases List.mem_cons.mp he with h1 | h1
      · rw [h1]
        assumption
      · intro hcontra
        exact ih _ e h1 (List.mem_cons_of_mem _ hcontra)

theorem nodup_map_dedupAux :
    ∀ (es : List RawEvent) (seen : List (String × String × String)),
      ((dedupAux seen es).map eventKey).Nodup := by
  intro es
  induction es with
  | nil => intro seen; simp [dedupAux]
  | cons e es ih =>
    intro seen
    simp only [dedupAux]
    split
    · exact ih seen
    · rw [List.map_cons, List.nodup_cons]
      refine ⟨?_, ih _⟩
      intro hmem
      obtain ⟨x, hx, hkx⟩ := List.mem_map.mp hmem
      exact mem_dedupAux_not_seen es _ x hx (hkx ▸ List.mem_cons_self _ _)

theorem dedupAux_of_nodup :
    ∀ (es : List RawEvent) (seen : List (String × String × String)),
      (es.map eventKey).Nodup → (∀ e ∈ es, eventKey e ∉ seen) →
      dedupAux seen es = es := by
  intro es
  induction es with
  | nil => intro seen _ _; rfl
  | cons e es ih =>
    intro seen hnd hseen
    simp only [List.map_cons, List.nodup_cons] at hnd
    simp only [dedupAux, if_neg (hseen e (List.mem_cons_self _ _))]
    rw [ih (eventKey e :: seen) hnd.2]
    intro x hx
    simp only [List.mem_cons]
    rintro (h1 | h1)
    · exact hnd.1 (h1 ▸ List.mem_map.mpr ⟨x, hx, rfl⟩)
    · exact hseen x (List.mem_cons_of_mem _ hx) h1

/-! ## Bucket-list helper lemmas -/

theorem firstConn_mem {l : List Conn} (h : l ≠ []) : firstConn l ∈ l := by
  rcases hs : sortByTs l with _ | ⟨c, s⟩
  · exfalso
    apply h
    have hlen := length_sortByTs l
    rw [hs] at hlen
    exact List.length_eq_zero.mp hlen.symm
  · have hc : firstConn l = c := by
      unfold firstConn
      rw [hs]
      rfl
    rw [hc]
    apply mem_sortByTs.mp
    rw [hs]
    exact List.mem_cons_self _ _

theorem lastConn_mem {l : List Conn} (h : l ≠ []) : lastConn l ∈ l := by
  have hs : sortByTs l ≠ [] := by
    intro hh
    apply h
    have hlen := length_sortByTs l
    rw [hh] at hlen
    exact List.length_eq_zero.mp hlen.symm
  rcases ho : (sortByTs l).getLast? with _ | c
  · exfalso
    rw [← List.getLast?_isSome] at hs
    rw [ho] at hs
    simp at hs
  · have hc : lastConn l = c := by
      unfold lastConn
      rw [ho]
      rfl
    rw [hc]
    apply mem_sortByTs.mp
    exact List.mem_of_mem_getLast? (by rw [ho]; rfl)

theorem devicePatterns_unique {conns : List Conn} {D : Nat} {m : String}
    {d d' : DevData} (h : (m, d) ∈ devicePatterns conns D)
    (h' : (m, d') ∈ devicePatterns conns D) : d = d' := by
  have h1 := lookupD_of_mem (nodup_keysD_devicePatterns conns D) h
  have h2 := lookupD_of_mem (nodup_keysD_devicePatterns conns D) h'
  rw [h1] at h2
  exact (Option.some.injEq _ _ ▸ h2)

theorem loiterLookup_isSome_of_mem {lds : List LoiterRec} {m : String}
    (h : ∃ ld ∈ lds, ld.mac = m) : (loiterLookup lds m).isSome = true := by
  obtain ⟨ld, hld, hmac⟩ := h
  unfold loiterLookup
  rw [List.find?_isSome]
  exact ⟨ld, hld, by simp [hmac]⟩

theorem specPolicy_ne_target (lo : Bool) (bc ds : Nat) :
    specPolicy lo bc ds ≠ "TARGET_DATE" := by
  unfold specPolicy
  split_ifs <;> decide

/-! ## Claim theorems -/

/-- Claim C7: Event deduplication over a raw event list keeps, for every
`(timestamp, mac, type)` key, exactly the first occurrence in arrival
order and silently discards every repeat, producing an order-preserving
sequence (a sublist of the input) with exactly one record per unique key
(the filter by any key is the first occurrence of that key); applying it
again to its own output changes nothing. -/
theorem dedup_first_occurrence_idempotent (es : List RawEvent) :
    (deduplicateEvents es).Sublist es ∧
    (∀ k : String × String × String,
      (deduplicateEvents es).filter (fun e => decide (eventKey e = k)) =
        (es.filter (fun e => decide (eventKey e = k))).take 1) ∧
    deduplicateEvents (deduplicateEvents es) = deduplicateEvents es := by
  refine ⟨dedupAux_sublist es [], ?_, ?_⟩
  · intro k
    have h := filter_dedupAux k es []
    simpa using h
  · exact dedupAux_of_nodup _ [] (nodup_map_dedupAux es []) (by simp)

/-- Claim C9: The timestamp-hour classifiers are total Boolean functions; on a
timestamp that fails to parse (modelled as `none`) both `is_out_of_hours`
and `is_business_hours` return `false`, so the event is excluded from both
the out-of-hours and the business-hours buckets. -/
theorem timestamp_classifiers_fail_soft :
    is_out_of_hours none = false ∧ is_business_hours none = false :=
  ⟨rfl, rfl⟩

/-- Claim C4: The loitering detector flags a MAC for target date `D` iff that
MAC has at least 2 connections dated `D` and, after sorting those
connections by timestamp, the first connection's hour is in `[6, 18)`, the
last connection's hour is ≥ 18, and the elapsed time from first to last
exceeds 8 hours (28800 seconds); the emitted `duration_hours` is the
elapsed hours rounded to 0.1. -/
theorem loitering_detector_iff (conns : List Conn) (D : Nat) (m : String)
    (hm : m ≠ "") :
    ((∃ ld ∈ detect_loitering_patterns conns D, ld.mac = m) ↔
      loiterCond conns D m) ∧
    ∀ ld ∈ detect_loitering_patterns conns D, ld.mac = m →
      ld.duration_hours =
        roundTenth ((elapsedSec (targetDayConns conns D m) : ℚ) / 3600) := by
  refine ⟨detectHasMac_iff conns D m hm, ?_⟩
  intro ld hld hmac
  obtain ⟨-, hemit⟩ := mem_detect_iff.mp hld
  rw [hmac] at hemit
  obtain ⟨-, heq⟩ := loiterEmit_eq_some_iff.mp hemit
  rw [heq]
  rfl

/-- Witness for C4 at the spec's scenario: MAC `cc`, first connection
09:00, last 19:30 on day 10; the detector flags it and reports
`duration_hours = 10.5`. -/
theorem loitering_detector_iff_witness :
    ("cc" ≠ "" ∧
      (((∃ ld ∈ detect_loitering_patterns exLoiterConns 10, ld.mac = "cc") ↔
          loiterCond exLoiterConns 10 "cc") ∧
        ∀ ld ∈ detect_loitering_patterns exLoiterConns 10, ld.mac = "cc" →
          ld.duration_hours =
            roundTenth
              ((elapsedSec (targetDayConns exLoiterConns 10 "cc") : ℚ) / 3600))) ∧
    ∃ ld ∈ detect_loitering_patterns exLoiterConns 10,
      ld.mac = "cc" ∧ ld.duration_hours = 21 / 2 := by
  have hthm := loitering_detector_iff exLoiterConns 10 "cc" (by decide)
  refine ⟨⟨by decide, hthm⟩, ?_⟩
  obtain ⟨ld, hld, hmac⟩ := hthm.1.mpr (by decide)
  refine ⟨ld, hld, hmac, ?_⟩
  rw [hthm.2 ld hld hmac]
  rw [show elapsedSec (targetDayConns exLoiterConns 10 "cc") = 37800 from
    by decide]
  norm_num [roundTenth, round_eq]

/-- Counterexample to **C5** as stated: the claim predicts `departed_hour`
is the `24` sentinel whenever the device is still connected at day end with
`last.hour ≥ 18`, but for MAC `cc` (last connection 19:30, hour 19 ≥ 18)
the code emits `departed_hour = 19`, not `24`. -/
theorem loitering_departed_hour_counterexample :
    ∃ ld ∈ detect_loitering_patterns exLoiterConns 10,
      ld.mac = "cc" ∧ 18 ≤ ld.last_target_connection.hour ∧
      ld.departed_hour = 19 ∧ ld.departed_hour ≠ 24 := by
  obtain ⟨ld, hld, hmac⟩ :=
    (detectHasMac_iff exLoiterConns 10 "cc" (by decide)).mpr (by decide)
  obtain ⟨-, hemit⟩ := mem_detect_iff.mp hld
  rw [hmac] at hemit
  obtain ⟨-, heq⟩ := loiterEmit_eq_some_iff.mp hemit
  refine ⟨ld, hld, hmac, ?_, ?_, ?_⟩ <;> rw [heq] <;> decide

/-- Claim C5 (amended): Every flagged loitering record carries the first
sorted connection's hour as `arrived_hour`, and a `departed_hour` that is
the last connection's hour when `last.hour ≥ 18` and the `24` sentinel
otherwise; since flagging requires `last.hour ≥ 18`, the emitted
`departed_hour` always equals the last connection's hour. -/
theorem loitering_arrival_departure_hours (conns : List Conn) (D : Nat)
    (m : String) :
    ∀ ld ∈ detect_loitering_patterns conns D, ld.mac = m →
      ld.arrived_hour = (firstConn (targetDayConns conns D m)).timestamp.hour ∧
      ld.departed_hour =
        (if 18 ≤ (lastConn (targetDayConns conns D m)).timestamp.hour then
          (lastConn (targetDayConns conns D m)).timestamp.hour
        else 24) ∧
      ld.departed_hour = (lastConn (targetDayConns conns D m)).timestamp.hour := by
  intro ld hld hmac
  obtain ⟨-, hemit⟩ := mem_detect_iff.mp hld
  rw [hmac] at hemit
  obtain ⟨⟨-, -, -, hlast, -⟩, heq⟩ := loiterEmit_eq_some_iff.mp hemit
  subst heq
  refine ⟨rfl, rfl, ?_⟩
  simp only [loiterRecOf]
  rw [if_pos hlast]

/-- Witness for C5 (amended) at the `cc` scenario. -/
theorem loitering_hours_witness :
    ∃ ld ∈ detect_loitering_patterns exLoiterConns 10, ld.mac = "cc" ∧
      (ld.arrived_hour =
          (firstConn (targetDayConns exLoiterConns 10 "cc")).timestamp.hour ∧
        ld.departed_hour =
          (if 18 ≤ (lastConn (targetDayConns exLoiterConns 10 "cc")).timestamp.hour
            then (lastConn (targetDayConns exLoiterConns 10 "cc")).timestamp.hour
            else 24) ∧
        ld.departed_hour =
          (lastConn (targetDayConns exLoiterConns 10 "cc")).timestamp.hour) := by
  obtain ⟨ld, hld, hmac⟩ :=
    (detectHasMac_iff exLoiterConns 10 "cc" (by decide)).mpr (by decide)
  exact ⟨ld, hld, hmac,
    loitering_arrival_departure_hours exLoiterConns 10 "cc" ld hld hmac⟩

/-- Claim C3: Every device flagged by the loitering detector receives a
record in `target_date_devices` labelled `LOITERING_SUSPICIOUS` carrying
the detector's explanation, regardless of its baseline counts. -/
theorem loitering_precedence (conns : List Conn) (D : Nat) (ld : LoiterRec)
    (hld : ld ∈ detect_loitering_patterns conns D) :
    ∃ r ∈ (analyze_out_of_hours_patterns conns D).target_date_devices,
      r.mac = ld.mac ∧ r.risk_level = "LOITERING_SUSPICIOUS" ∧
      r.risk_explanation = ld.risk_explanation := by
  obtain ⟨hm, hemit⟩ := mem_detect_iff.mp hld
  obtain ⟨⟨hlen, h6, h18, hlast, hsec⟩, hldeq⟩ := loiterEmit_eq_some_iff.mp hemit
  have hlne : targetDayConns conns D ld.mac ≠ [] := by
    intro hh
    rw [hh] at hlen
    simp at hlen
  have hlast_mem : lastConn (targetDayConns conns D ld.mac) ∈
      targetDayConns conns D ld.mac := lastConn_mem hlne
  have hfilt := List.mem_filter.mp hlast_mem
  have hprops : (lastConn (targetDayConns conns D ld.mac)).timestamp.date = D ∧
      (lastConn (targetDayConns conns D ld.mac)).client_mac = ld.mac := by
    have h2 := hfilt.2
    simp only [Bool.and_eq_true, decide_eq_true_eq] at h2
    exact h2
  have hooh : lastConn (targetDayConns conns D ld.mac) ∈
      macOohStream conns ld.mac := by
    unfold macOohStream oohConns
    rw [List.mem_filter, List.mem_filter]
    refine ⟨⟨hfilt.1, ?_⟩, by simp [hprops.2]⟩
    simp only [is_out_of_hours, Bool.or_eq_true, decide_eq_true_eq]
    left
    exact hlast
  have htcy : isTargetCycle D (lastConn (targetDayConns conns D ld.mac)) = true := by
    simp only [isTargetCycle, Bool.or_eq_true, Bool.and_eq_true,
      decide_eq_true_eq]
    left
    exact ⟨hprops.1, hlast⟩
  have hagg : ∃ d, (ld.mac, d) ∈ devicePatterns conns D := by
    rcases hs : macOohStream conns ld.mac with _ | ⟨c, s⟩
    · rw [hs] at hooh
      simp at hooh
    · exact ⟨_, mem_devicePatterns_iff.mpr ⟨hm, by rw [hs]; rfl⟩⟩
  obtain ⟨d, hd⟩ := hagg
  have htc : 0 < d.target_date_connections.length := by
    rw [devData_target_of_mem hd]
    have hmem2 : lastConn (targetDayConns conns D ld.mac) ∈
        (macOohStream conns ld.mac).filter (isTargetCycle D) :=
      List.mem_filter.mpr ⟨hooh, htcy⟩
    apply List.length_pos.mpr
    intro hh
    rw [hh] at hmem2
    simp at hmem2
  have hlook := loiterLookup_of_mem hld
  refine ⟨classifiedInfo (detect_loitering_patterns conns D) ld.mac d,
    classifiedInfo_mem_target hd htc, classifiedInfo_mac _ _ _, ?_,
    classifiedInfo_expl_some d hlook⟩
  rw [classifiedInfo_risk, hlook]
  rfl

/-- Witness for C3 at the `cc` scenario. -/
theorem loitering_precedence_witness :
    ∃ ld ∈ detect_loitering_patterns exLoiterConns 10,
      ∃ r ∈ (analyze_out_of_hours_patterns exLoiterConns 10).target_date_devices,
        r.mac = ld.mac ∧ r.risk_level = "LOITERING_SUSPICIOUS" ∧
        r.risk_explanation = ld.risk_explanation := by
  obtain ⟨ld, hld, -⟩ :=
    (detectHasMac_iff exLoiterConns 10 "cc" (by decide)).mpr (by decide)
  exact ⟨ld, hld, loitering_precedence exLoiterConns 10 ld hld⟩

/-- Claim C1: For every MAC with at least one target-night out-of-hours
connection, the record classified into `target_date_devices` carries a
risk level given by the ordered, first-match-wins policy: loitering flag →
`LOITERING_SUSPICIOUS`; else `baseline_count = 0` →
`ANOMALOUS_SUSPICIOUS`; else `baseline_count ≥ 1 ∧ days_seen ≥ 2` →
`BASELINE_REGULAR`; else `baseline_count ≥ 3` → `BASELINE_REGULAR` (also
when `days_seen = 1`); else `ANOMALOUS_SUSPICIOUS` — `specPolicy` spells
out exactly this ordered policy. -/
theorem classification_applies_ordered_policy (conns : List Conn) (D : Nat)
    (m : String) (d : DevData) (hmem : (m, d) ∈ devicePatterns conns D)
    (htc : 0 < d.target_date_connections.length) :
    ∃ r ∈ (analyze_out_of_hours_patterns conns D).target_date_devices,
      r.mac = m ∧
      r.baseline_connections = d.baseline_connections.length ∧
      r.days_seen_out_of_hours = d.all_dates.length ∧
      r.risk_level =
        specPolicy (loiterLookup (detect_loitering_patterns conns D) m).isSome
          d.baseline_connections.length d.all_dates.length :=
  ⟨classifiedInfo (detect_loitering_patterns conns D) m d,
    classifiedInfo_mem_target hmem htc, classifiedInfo_mac _ _ _,
    classifiedInfo_baseline _ _ _, classifiedInfo_days _ _ _,
    classifiedInfo_risk _ _ _⟩

/-- Witness for C1: MAC `aa` with 2 baseline connections across 2 baseline
days plus one target-night connection. -/
theorem classification_policy_witness :
    ∃ d : DevData,
      (("aa", d) ∈ devicePatterns exRegularConns 10 ∧
        0 < d.target_date_connections.length) ∧
      ∃ r ∈ (analyze_out_of_hours_patterns exRegularConns 10).target_date_devices,
        r.mac = "aa" ∧
        r.baseline_connections = d.baseline_connections.length ∧
        r.days_seen_out_of_hours = d.all_dates.length ∧
        r.risk_level =
          specPolicy
            (loiterLookup (detect_loitering_patterns exRegularConns 10) "aa").isSome
            d.baseline_connections.length d.all_dates.length := by
  obtain ⟨⟨m, d⟩, hmem, hmac, htc⟩ := (by decide :
    ∃ p ∈ devicePatterns exRegularConns 10,
      p.1 = "aa" ∧ 0 < p.2.target_date_connections.length)
  have hm : m = "aa" := hmac
  subst hm
  have htc' : 0 < d.target_date_connections.length := htc
  exact ⟨d, ⟨hmem, htc'⟩,
    classification_applies_ordered_policy exRegularConns 10 "aa" d hmem htc'⟩

/-- Counterexample to **C2** as stated: MAC `cc` has `baseline_count = 0`
and `target_count > 0`, yet its (unique) record in `target_date_devices`
is `LOITERING_SUSPICIOUS`, not `ANOMALOUS_SUSPICIOUS`, because the
loitering rule takes precedence. -/
theorem zero_baseline_not_always_anomalous :
    (∃ p ∈ devicePatterns exLoiterConns 10, p.1 = "cc" ∧
      p.2.baseline_connections.length = 0 ∧
      0 < p.2.target_date_connections.length) ∧
    (∃ r ∈ (analyze_out_of_hours_patterns exLoiterConns 10).target_date_devices,
      r.mac = "cc") ∧
    ∀ r ∈ (analyze_out_of_hours_patterns exLoiterConns 10).target_date_devices,
      r.mac = "cc" → r.risk_level = "LOITERING_SUSPICIOUS" ∧
        r.risk_level ≠ "ANOMALOUS_SUSPICIOUS" := by
  have hsome : (loiterLookup (detect_loitering_patterns exLoiterConns 10) "cc").isSome = true :=
    loiterLookup_isSome_of_mem
      ((detectHasMac_iff exLoiterConns 10 "cc" (by decide)).mpr (by decide))
  refine ⟨by decide, ?_, ?_⟩
  · obtain ⟨⟨m, d⟩, hmem, hmac, htc⟩ := (by decide :
      ∃ p ∈ devicePatterns exLoiterConns 10,
        p.1 = "cc" ∧ 0 < p.2.target_date_connections.length)
    have hm : m = "cc" := hmac
    subst hm
    exact ⟨classifiedInfo _ "cc" d,
      classifiedInfo_mem_target hmem htc, classifiedInfo_mac _ _ _⟩
  · intro r hr hmac
    obtain ⟨m, d, hmem, htc, rfl⟩ := mem_analyze_target_iff.mp hr
    have hm : m = "cc" := by rw [← classifiedInfo_mac
      (detect_loitering_patterns exLoiterConns 10) m d]; exact hmac
    subst hm
    rw [classifiedInfo_risk, hsome]
    refine ⟨rfl, ?_⟩
    intro hh
    rw [show specPolicy true d.baseline_connections.length
      d.all_dates.length = "LOITERING_SUSPICIOUS" from rfl] at hh
    exact absurd hh (by decide)

/-- Claim C2 (amended): A MAC present only on the target night
(`baseline_count = 0`, `target_count > 0`) is classified
`ANOMALOUS_SUSPICIOUS` — and placed in `anomalous_devices` — unless the
loitering detector flags it, in which case `LOITERING_SUSPICIOUS` takes
precedence; every target-bucket record of such a non-loitering MAC carries
`ANOMALOUS_SUSPICIOUS`. -/
theorem zero_baseline_anomalous_unless_loitered (conns : List Conn)
    (D : Nat) (m : String) (d : DevData)
    (hmem : (m, d) ∈ devicePatterns conns D)
    (hbc : d.baseline_connections.length = 0)
    (htc : 0 < d.target_date_connections.length)
    (hnl : loiterLookup (detect_loitering_patterns conns D) m = none) :
    (∃ r ∈ (analyze_out_of_hours_patterns conns D).target_date_devices,
      r.mac = m ∧ r.risk_level = "ANOMALOUS_SUSPICIOUS" ∧
      r ∈ (analyze_out_of_hours_patterns conns D).anomalous_devices) ∧
    ∀ r ∈ (analyze_out_of_hours_patterns conns D).target_date_devices,
      r.mac = m → r.risk_level = "ANOMALOUS_SUSPICIOUS" := by
  constructor
  · refine ⟨classifiedInfo (detect_loitering_patterns conns D) m d,
      classifiedInfo_mem_target hmem htc, classifiedInfo_mac _ _ _, ?_,
      classifiedInfo_mem_anomalous hmem htc (Or.inr (Or.inl hbc))⟩
    rw [classifiedInfo_risk, hnl, hbc]
    rfl
  · intro r hr hmac
    obtain ⟨m', d', hmem', htc', rfl⟩ := mem_analyze_target_iff.mp hr
    have hm : m' = m := by
      rw [← classifiedInfo_mac (detect_loitering_patterns conns D) m' d']
      exact hmac
    subst hm
    have hd : d' = d := devicePatterns_unique hmem' hmem
    subst hd
    rw [classifiedInfo_risk, hnl, hbc]
    rfl

/-- Witness for C2 (amended): MAC `bb`, target-night only, not loitering. -/
theorem zero_baseline_anomalous_witness :
    ∃ d : DevData,
      (("bb", d) ∈ devicePatterns exTargetOnlyConns 10 ∧
        d.baseline_connections.length = 0 ∧
        0 < d.target_date_connections.length ∧
        loiterLookup (detect_loitering_patterns exTargetOnlyConns 10) "bb" = none) ∧
      (∃ r ∈ (analyze_out_of_hours_patterns exTargetOnlyConns 10).target_date_devices,
        r.mac = "bb" ∧ r.risk_level = "ANOMALOUS_SUSPICIOUS" ∧
        r ∈ (analyze_out_of_hours_patterns exTargetOnlyConns 10).anomalous_devices) := by
  obtain ⟨⟨m, d⟩, hmem, hmac, hbc, htc⟩ := (by decide :
    ∃ p ∈ devicePatterns exTargetOnlyConns 10, p.1 = "bb" ∧
      p.2.baseline_connections.length = 0 ∧
      0 < p.2.target_date_connections.length)
  have hm : m = "bb" := hmac
  subst hm
  have hbc' : d.baseline_connections.length = 0 := hbc
  have htc' : 0 < d.target_date_connections.length := htc
  have hnl : loiterLookup (detect_loitering_patterns exTargetOnlyConns 10) "bb" =
      none := by decide
  exact ⟨d, ⟨hmem, hbc', htc', hnl⟩,
    (zero_baseline_anomalous_unless_loitered exTargetOnlyConns 10 "bb" d hmem
      hbc' htc' hnl).1⟩

/-- Claim C6: For every aggregated MAC, the target-night bucket holds exactly
the MAC's out-of-hours events with `date = D ∧ hour ≥ 18` or
`date = D + 1 ∧ hour < 6`, and the baseline bucket holds exactly the
remaining out-of-hours events of that MAC. -/
theorem night_cycle_coverage (conns : List Conn) (D : Nat) (m : String)
    (d : DevData) (hmem : (m, d) ∈ devicePatterns conns D) :
    d.target_date_connections =
      (macOohStream conns m).filter (fun c =>
        (decide (c.timestamp.date = D) && decide (18 ≤ c.timestamp.hour)) ||
        (decide (c.timestamp.date = D + 1) && decide (c.timestamp.hour < 6))) ∧
    d.baseline_connections =
      (macOohStream conns m).filter (fun c =>
        !((decide (c.timestamp.date = D) && decide (18 ≤ c.timestamp.hour)) ||
          (decide (c.timestamp.date = D + 1) && decide (c.timestamp.hour < 6)))) :=
  ⟨devData_target_of_mem hmem, devData_baseline_of_mem hmem⟩

/-- Witness for C6: MAC `aa` of `exRegularConns` on day 10. -/
theorem night_cycle_coverage_witness :
    ∃ d : DevData, ("aa", d) ∈ devicePatterns exRegularConns 10 ∧
      (d.target_date_connections =
        (macOohStream exRegularConns "aa").filter (fun c =>
          (decide (c.timestamp.date = 10) && decide (18 ≤ c.timestamp.hour)) ||
          (decide (c.timestamp.date = 10 + 1) && decide (c.timestamp.hour < 6))) ∧
      d.baseline_connections =
        (macOohStream exRegularConns "aa").filter (fun c =>
          !((decide (c.timestamp.date = 10) && decide (18 ≤ c.timestamp.hour)) ||
            (decide (c.timestamp.date = 10 + 1) && decide (c.timestamp.hour < 6))))) := by
  obtain ⟨⟨m, d⟩, hmem, hmac⟩ := (by decide :
    ∃ p ∈ devicePatterns exRegularConns 10, p.1 = "aa")
  have hm : m = "aa" := hmac
  subst hm
  exact ⟨d, hmem, night_cycle_coverage exRegularConns 10 "aa" d hmem⟩

/-- Claim C10: Every record in `target_date_devices` has been relabelled by
its matched rule — the interim `TARGET_DATE` label never survives: the
record's `risk_level` is `LOITERING_SUSPICIOUS`, `ANOMALOUS_SUSPICIOUS`
(in which case the very same record is in `anomalous_devices`) or
`BASELINE_REGULAR` (in which case the very same record is in
`baseline_regular_devices`). -/
theorem target_bucket_relabelled (conns : List Conn) (D : Nat)
    (r : DeviceInfo)
    (hr : r ∈ (analyze_out_of_hours_patterns conns D).target_date_devices) :
    r.risk_level ≠ "TARGET_DATE" ∧
    (((r.risk_level = "LOITERING_SUSPICIOUS" ∨
        r.risk_level = "ANOMALOUS_SUSPICIOUS") ∧
      r ∈ (analyze_out_of_hours_patterns conns D).anomalous_devices) ∨
     (r.risk_level = "BASELINE_REGULAR" ∧
      r ∈ (analyze_out_of_hours_patterns conns D).baseline_regular_devices)) := by
  obtain ⟨m, d, hmem, htc, rfl⟩ := mem_analyze_target_iff.mp hr
  refine ⟨by rw [classifiedInfo_risk]; exact specPolicy_ne_target _ _ _, ?_⟩
  rcases hlk : loiterLookup (detect_loitering_patterns conns D) m with _ | ld
  · by_cases hbc : d.baseline_connections.length = 0
    · refine Or.inl ⟨Or.inr ?_, classifiedInfo_mem_anomalous hmem htc
        (Or.inr (Or.inl hbc))⟩
      rw [classifiedInfo_risk, hlk, hbc]
      rfl
    · by_cases h3 : 1 ≤ d.baseline_connections.length ∧ 2 ≤ d.all_dates.length
      · refine Or.inr ⟨?_, classifiedInfo_mem_regular hmem htc hlk hbc
          (Or.inl h3)⟩
        rw [classifiedInfo_risk, hlk]
        simp [specPolicy, hbc, h3]
      · by_cases h4 : 3 ≤ d.baseline_connections.length
        · refine Or.inr ⟨?_, classifiedInfo_mem_regular hmem htc hlk hbc
            (Or.inr h4)⟩
          rw [classifiedInfo_risk, hlk]
          simp [specPolicy, hbc, h3, h4]
        · refine Or.inl ⟨Or.inr ?_, classifiedInfo_mem_anomalous hmem htc
            (Or.inr (Or.inr ⟨h3, h4⟩))⟩
          rw [classifiedInfo_risk, hlk]
          simp [specPolicy, hbc, h3, h4]
  · refine Or.inl ⟨Or.inl ?_, classifiedInfo_mem_anomalous hmem htc
      (Or.inl (by rw [hlk]; rfl))⟩
    rw [classifiedInfo_risk, hlk]
    rfl

set_option maxRecDepth 100000 in
/-- Witness for C10: the `bb` record of `exTargetOnlyConns`. -/
theorem target_bucket_relabelled_witness :
    (exTargetOnlyInfo ∈
      (analyze_out_of_hours_patterns exTargetOnlyConns 10).target_date_devices) ∧
    (exTargetOnlyInfo.risk_level ≠ "TARGET_DATE" ∧
      (((exTargetOnlyInfo.risk_level = "LOITERING_SUSPICIOUS" ∨
          exTargetOnlyInfo.risk_level = "ANOMALOUS_SUSPICIOUS") ∧
        exTargetOnlyInfo ∈
          (analyze_out_of_hours_patterns exTargetOnlyConns 10).anomalous_devices) ∨
       (exTargetOnlyInfo.risk_level = "BASELINE_REGULAR" ∧
        exTargetOnlyInfo ∈
          (analyze_out_of_hours_patterns exTargetOnlyConns 10).baseline_regular_devices))) :=
  ⟨by decide,
    target_bucket_relabelled exTargetOnlyConns 10 exTargetOnlyInfo (by decide)⟩

/-- Claim C8: The extended-session detector flags MAC `dd` (business-hours
start 11:00, last seen 18:30, elapsed 27000 s ≤ 8 h — no minimum duration),
but the bucket dict built by `analyze_out_of_hours_patterns` (the exporter's
input) has no `extended_session_devices` key, and `dd`'s risk level is
decided by the ordinary rules (`ANOMALOUS_SUSPICIOUS`), untouched by the
extended-session flag: `analyze_extended_sessions` is never invoked by
`run_analysis`, so its report is never produced nor exported. -/
theorem extended_sessions_detector_dead_code :
    (∃ e ∈ analyze_extended_sessions exExtConns 10,
      e.mac = "dd" ∧ e.connected_hour = 11 ∧ e.last_seen_hour = 18 ∧
      elapsedSec (targetDayConns exExtConns 10 "dd") = 27000) ∧
    ("extended_session_devices" ∉ analysisKeys) ∧
    (∃ r ∈ (analyze_out_of_hours_patterns exExtConns 10).target_date_devices,
      r.mac = "dd" ∧ r.risk_level = "ANOMALOUS_SUSPICIOUS") := by
  refine ⟨?_, by decide, ?_⟩
  · obtain ⟨e, he, hmac⟩ :=
      (extHasMac_iff exExtConns 10 "dd" (by decide)).mpr (by decide)
    obtain ⟨-, hemit⟩ := mem_extSessions_iff.mp he
    rw [hmac] at hemit
    obtain ⟨-, heq⟩ := extEmit_eq_some_iff.mp hemit
    refine ⟨e, he, hmac, ?_, ?_, by decide⟩
    · rw [heq]
      decide
    · rw [heq]
      decide
  · have hnl : loiterLookup (detect_loitering_patterns exExtConns 10) "dd" =
        none := by
      rw [loiterLookup_eq_none_iff]
      intro ld hld heq
      exact absurd
        ((detectHasMac_iff exExtConns 10 "dd" (by decide)).mp ⟨ld, hld, heq⟩)
        (by decide)
    obtain ⟨⟨m, d⟩, hmem, hmac, htc, hbc⟩ := (by decide :
      ∃ p ∈ devicePatterns exExtConns 10, p.1 = "dd" ∧
        0 < p.2.target_date_connections.length ∧
        p.2.baseline_connections.length = 0)
    have hm : m = "dd" := hmac
    subst hm
    have htc' : 0 < d.target_date_connections.length := htc
    have hbc' : d.baseline_connections.length = 0 := hbc
    refine ⟨classifiedInfo _ "dd" d, classifiedInfo_mem_target hmem htc',
      classifiedInfo_mac _ _ _, ?_⟩
    rw [classifiedInfo_risk, hnl, hbc']
    rfl

end MerakiDetective
